import Mathlib

/-!
PoliSEE core model: a shallow embedding of backend/simulation
(agents.py, environment.py, policy_definitions.py, simulation_engine.py,
emergence_detector.py) over exact rationals.

Modelling conventions:
- Python floats are modelled as rationals.
- The global pseudorandom generators (random, numpy.random) are modelled as
  abstract streams of values in [0,1): a World maps a seed to the stream a
  seeded Mersenne Twister would produce, and random.seed replaces the hidden
  stream exactly as in Python.
- Transcendental primitives (numpy.exp, the lognormal sampler viewed as a
  function of its underlying uniform draw, the square root inside numpy.std)
  are abstract function parameters collected in a MathOracle.
- Fallible Python operations (dict indexing, random.sample ValueError,
  division by an agent count of zero) are modelled with Option: none marks
  the program raising an exception at that point.
-/

-- Rational arithmetic is re-marked semireducible so that concrete runs of
-- the model evaluate inside decide.
attribute [local semireducible] Rat.add Rat.mul Rat.inv Rat.sub Rat.ofScientific

/-- Decision tag: the possible values of the last_decision field. -/
inductive Decision where
  | comply
  | evade
deriving DecidableEq

/-- A pseudorandom stream together with a position: models the hidden state of
a seeded generator; each draw reads vals at pos and advances pos. -/
structure RNG where
  vals : Nat → ℚ
  pos : Nat

/-- Consume one raw draw. -/
def RNG.next (r : RNG) : ℚ × RNG := (r.vals r.pos, { r with pos := r.pos + 1 })

/-- A stream is valid when every raw draw lies in [0,1), as random.random and
numpy.random.random guarantee. -/
def RNG.Valid (r : RNG) : Prop := ∀ n, 0 ≤ r.vals n ∧ r.vals n < 1

/-- Seed-indexed families of streams for the two global generators
(random and numpy.random). -/
structure World where
  pyStream : ℤ → Nat → ℚ
  npStream : ℤ → Nat → ℚ

/-- Every stream of the world yields draws in [0,1). -/
def World.Valid (W : World) : Prop :=
  ∀ s n, (0 ≤ W.pyStream s n ∧ W.pyStream s n < 1) ∧
    (0 ≤ W.npStream s n ∧ W.npStream s n < 1)

/-- The pair of global generator states (random, numpy.random). -/
structure GlobalRNG where
  py : RNG
  npr : RNG

/-- random.seed(s) followed by np.random.seed(s): both hidden streams are
replaced by the stream determined by the seed, discarding prior state. -/
def seedAll (W : World) (s : ℤ) : GlobalRNG :=
  ⟨⟨W.pyStream s, 0⟩, ⟨W.npStream s, 0⟩⟩

/-- Abstract real-valued primitives used by the source: numpy.exp, the
lognormal sampler (mean, sigma, underlying uniform draw), and the square root
used inside numpy.std. -/
structure MathOracle where
  exp : ℚ → ℚ
  lognormal : ℚ → ℚ → ℚ → ℚ
  sqrt : ℚ → ℚ

/-- random.random(). -/
def randFloat (r : RNG) : ℚ × RNG := r.next

/-- random.uniform(a, b). -/
def randUniform (a b : ℚ) (r : RNG) : ℚ × RNG :=
  let (u, r') := r.next
  (a + (b - a) * u, r')

/-- random.randint(a, b): an integer in [a, b] for valid draws. -/
def randInt (a b : ℤ) (r : RNG) : ℤ × RNG :=
  let (u, r') := r.next
  (a + ⌊u * ((b : ℚ) - (a : ℚ) + 1)⌋, r')

/-- random.sample(pool, k): k distinct elements of the pool drawn without
replacement by successive index draws; none models the ValueError raised when
k exceeds the population size. -/
def randSample : Nat → List Nat → RNG → Option (List Nat × RNG)
  | 0, _, r => some ([], r)
  | k+1, pool, r =>
    if pool.length < k + 1 then none
    else
      let (i, r') := randInt 0 ((pool.length : ℤ) - 1) r
      match pool[i.toNat]? with
      | none => none
      | some x =>
        match randSample k (pool.eraseIdx i.toNat) r' with
        | none => none
        | some (xs, r'') => some (x :: xs, r'')

/-- Agent state: the fields set by agents.py Agent.__init__. -/
structure Agent where
  id : Nat
  income : ℚ
  base_income : ℚ
  consumption_need : ℚ
  mobility : ℚ
  risk_tolerance : ℚ
  social_influence_weight : ℚ
  wealth : ℚ
  compliance_probability : ℚ
  is_eligible : Bool
  last_decision : Decision
  stress_level : ℚ
  last_consumption : ℚ
deriving DecidableEq

/-- Agent.__init__ (with seed=None, as generate_population constructs agents):
wealth starts at income, compliance_probability = 1 - 0.5*(1 - risk_tolerance),
stress 0, last_decision comply, last_consumption 0. -/
def Agent.init (agent_id : Nat) (income consumption_need mobility risk_tolerance : ℚ)
    (social_influence_weight : ℚ) : Agent :=
  { id := agent_id
    income := income
    base_income := income
    consumption_need := consumption_need
    mobility := mobility
    risk_tolerance := risk_tolerance
    social_influence_weight := social_influence_weight
    wealth := income
    compliance_probability := 1 - (1/2) * (1 - risk_tolerance)
    is_eligible := false
    last_decision := .comply
    stress_level := 0
    last_consumption := 0 }

/-- Agent.decide_consumption(price, availability): target is need times a
stochastic multiplier 1.1 - 0.2*u, realized is the minimum of target,
wealth/max(0.1, price) and availability; wealth is debited, stress moves
asymmetrically and is clamped to [0,1]. Returns ((realized, agent), rng). -/
def Agent.decide_consumption (a : Agent) (price availability : ℚ) (r : RNG) :
    (ℚ × Agent) × RNG :=
  let affordable_qty := a.wealth / max (1/10) price
  let (u, r') := randFloat r
  let target_qty := a.consumption_need * (11/10 - (1/5) * u)
  let actual_qty := min (min target_qty affordable_qty) availability
  let wealth := a.wealth - actual_qty * price
  let stress :=
    if actual_qty < a.consumption_need * (4/5) then
      a.stress_level + 1/20 +
        ((a.consumption_need * (4/5) - actual_qty) / (a.consumption_need * (4/5))) * (3/20)
    else a.stress_level - 3/100
  ((actual_qty,
    { a with wealth := wealth
             last_consumption := actual_qty
             stress_level := max 0 (min 1 stress) }), r')

/-- Agent.decide_compliance(expected_penalty, black_market_premium): a
sigmoid-shaped evasion probability scaled by 1 - compliance_probability and
compared against a uniform draw; sets last_decision. -/
def Agent.decide_compliance (O : MathOracle) (a : Agent)
    (expected_penalty black_market_premium : ℚ) (r : RNG) : Decision × Agent × RNG :=
  let effective_risk_tolerance := a.risk_tolerance * (1 + a.stress_level)
  let incentive := black_market_premium / max (1/10) expected_penalty
  let evasion_prob :=
    1 / (1 + O.exp (-(2 * incentive + 5 * (effective_risk_tolerance - 7/10))))
  let final_evasion_prob := evasion_prob * (1 - a.compliance_probability)
  let (u, r') := randFloat r
  if u < final_evasion_prob then (.evade, { a with last_decision := .evade }, r')
  else (.comply, { a with last_decision := .comply }, r')

/-- Agent.apply_social_influence(neighbors_behavior): drifts
compliance_probability toward the local evasion rate, scaled by
social_influence_weight, clamped to [0.1, 1.0]; no-op on an empty list. -/
def Agent.apply_social_influence (a : Agent) (neighbors_behavior : List Decision) : Agent :=
  if neighbors_behavior.length = 0 then a
  else
    let evasion_rate :=
      ((neighbors_behavior.filter (fun d => d = Decision.evade)).length : ℚ) /
        (neighbors_behavior.length : ℚ)
    let adjustment := (evasion_rate - 1/2) * a.social_influence_weight
    { a with
      compliance_probability := max (1/10) (min 1 (a.compliance_probability - adjustment)) }

/-- Agent.update_income(new_income): sets income and base_income to the new
value and replenishes wealth by the full new monthly income. -/
def Agent.update_income (a : Agent) (new_income : ℚ) : Agent :=
  { a with income := new_income
           wealth := a.wealth + new_income
           base_income := new_income }

/-- Loop body of generate_population: one lognormal income draw from the
numpy stream, then mobility and risk tolerance from the python stream;
consumption_need = 500 + 0.2 * income; default social influence weight 0.1. -/
def generatePopulationLoop (O : MathOracle) : Nat → Nat → GlobalRNG → List Agent × GlobalRNG
  | 0, _, g => ([], g)
  | k+1, i, g =>
    let (u1, npr') := randFloat g.npr
    let income := O.lognormal 7 (4/5) u1
    let consumption_need := 500 + income * (1/5)
    let (mobility, py1) := randUniform 0 1 g.py
    let (risk_tolerance, py2) := randUniform 0 1 py1
    let a := Agent.init i income consumption_need mobility risk_tolerance (1/10)
    let (rest, g') := generatePopulationLoop O k (i+1) ⟨py2, npr'⟩
    (a :: rest, g')

/-- generate_population(n, seed): reseeds both global generators from the
seed, then draws the population; range(n) is empty for non-positive n. -/
def generate_population (W : World) (O : MathOracle) (n : ℤ) (seed : ℤ) :
    List Agent × GlobalRNG :=
  generatePopulationLoop O n.toNat 0 (seedAll W seed)

/-- Policy type tags. The first three are the members of the PolicyType enum
in policy_definitions.py. FUEL_TAX_REBATE is the tag of the FuelTaxWithRebate
policy that main.py and generate_dataset.py import from policy_definitions
but whose definition is missing from src; it is modelled from the spec. -/
inductive PolicyType where
  | HOUSING_RENT_SUBSIDY
  | LUXURY_ASSET_TAX
  | FOOD_PRICE_CEILING
  | FUEL_TAX_REBATE
deriving DecidableEq

/-- Enum members of PolicyType exactly as the class is written in
policy_definitions.py lines 5-8 of src. -/
def policyTypeMembers : List String :=
  ["HOUSING_RENT_SUBSIDY", "LUXURY_ASSET_TAX", "FOOD_PRICE_CEILING"]

/-- Python attribute lookup on an enum class: the member when it exists,
none when the access raises AttributeError. -/
def enumLookup (members : List String) (name : String) : Option String :=
  members.find? (fun m => m == name)

/-- Policy: a type tag plus named parameter values (PolicyParameter ranges are
advisory and unused by the computation, so only values are kept). -/
structure Policy where
  type : PolicyType
  params : List (String × ℚ)
deriving DecidableEq

/-- Policy.get_param(name): the stored value of the named parameter. -/
def Policy.get_param (p : Policy) (name : String) : ℚ :=
  (p.params.lookup name).getD 0

/-- Lazy fuel-tax lookup of simulation_engine.py line 43:
next((p for p in active_policies if p.type == PolicyType.FUEL_TAX_REBATE), None)
evaluated against a given enum member list. The generator filter, and with it
the attribute access PolicyType.FUEL_TAX_REBATE, runs only when the policy
list yields an element; an empty list returns the default (some none), while
a missing member makes the first filter evaluation raise AttributeError
(the outer none). -/
def fuelTaxLookup (members : List String) : List Policy → Option (Option Policy)
  | [] => some none
  | p :: rest =>
    match enumLookup members "FUEL_TAX_REBATE" with
    | none => none
    | some _ =>
      if p.type == PolicyType.FUEL_TAX_REBATE then some (some p)
      else fuelTaxLookup members rest

/-- HousingRentSubsidy(subsidy_amount, eligibility_threshold). -/
def HousingRentSubsidy (subsidy_amount eligibility_threshold : ℚ) : Policy :=
  ⟨.HOUSING_RENT_SUBSIDY,
   [("subsidy_amount", subsidy_amount), ("eligibility_threshold", eligibility_threshold)]⟩

/-- HousingRentSubsidy.apply_intended_effect(agent_income): adds the subsidy
below the eligibility threshold. -/
def HousingRentSubsidy.apply_intended_effect (p : Policy) (agent_income : ℚ) : ℚ :=
  if agent_income < p.get_param "eligibility_threshold" then
    agent_income + p.get_param "subsidy_amount"
  else agent_income

/-- HousingRentSubsidy.apply_distortion_mechanism(market_demand,
housing_supply): a price increase factor max(0, (demand/supply - 1) * 0.5),
with 1.0 returned when supply is exactly zero. -/
def HousingRentSubsidy.apply_distortion_mechanism
    (market_demand housing_supply : ℚ) : ℚ :=
  if housing_supply = 0 then 1
  else max 0 ((market_demand / housing_supply - 1) * (1/2))

/-- LuxuryAssetTax(tax_rate, wealth_threshold). -/
def LuxuryAssetTax (tax_rate wealth_threshold : ℚ) : Policy :=
  ⟨.LUXURY_ASSET_TAX, [("tax_rate", tax_rate), ("wealth_threshold", wealth_threshold)]⟩

/-- LuxuryAssetTax.calculate_wealth_tax(asset_value). -/
def LuxuryAssetTax.calculate_wealth_tax (p : Policy) (asset_value : ℚ) : ℚ :=
  if asset_value > p.get_param "wealth_threshold" then
    (asset_value - p.get_param "wealth_threshold") * p.get_param "tax_rate"
  else 0

/-- LuxuryAssetTax.get_capital_flight_probability(asset_value). -/
def LuxuryAssetTax.get_capital_flight_probability (p : Policy) (asset_value : ℚ) : ℚ :=
  if asset_value ≤ p.get_param "wealth_threshold" then 0
  else
    min (9/10) ((asset_value - p.get_param "wealth_threshold") / 1000
      * p.get_param "tax_rate" * 20)

/-- FoodPriceCeiling(price_cap, supply_sensitivity). -/
def FoodPriceCeiling (price_cap supply_sensitivity : ℚ) : Policy :=
  ⟨.FOOD_PRICE_CEILING,
   [("price_cap", price_cap), ("supply_sensitivity", supply_sensitivity)]⟩

/-- FoodPriceCeiling.supply_contraction(market_price). -/
def FoodPriceCeiling.supply_contraction (p : Policy) (market_price : ℚ) : ℚ :=
  let cap := p.get_param "price_cap"
  if cap < market_price then
    max (1/10) (1 - ((market_price - cap) / market_price) * p.get_param "supply_sensitivity")
  else 1

/-- Modelled from the spec: the FuelTaxWithRebate class is imported from
policy_definitions by main.py and generate_dataset.py but its definition is
missing from src; its constructor takes tax_rate and rebate_percent as at
those call sites. -/
def FuelTaxWithRebate (tax_rate rebate_percent : ℚ) : Policy :=
  ⟨.FUEL_TAX_REBATE, [("tax_rate", tax_rate), ("rebate_percent", rebate_percent)]⟩

/-- Modelled from the spec: consumption-time price is inflated by the tax
rate (FuelTaxWithRebate.apply_price_distortion, missing from src). -/
def FuelTaxWithRebate.apply_price_distortion (p : Policy) (price : ℚ) : ℚ :=
  price * (1 + p.get_param "tax_rate")

/-- Modelled from the spec: pooled revenue is redistributed evenly across the
population within the same step (FuelTaxWithRebate.apply_intended_effect,
missing from src); rebate_percent scales the redistributed pool, and the
engine adds back the difference from income, so the function returns income
plus the per-agent share. -/
def FuelTaxWithRebate.apply_intended_effect (p : Policy)
    (agent_income total_revenue : ℚ) (n : Nat) : ℚ :=
  agent_income + total_revenue * p.get_param "rebate_percent" / (n : ℚ)

/-- Neighborhood market state. -/
structure Neighborhood where
  supply : ℚ
  demand : ℚ
  price : ℚ
deriving DecidableEq

/-- Environment: neighborhoods keyed 0..size-1 (list position models the
dict key), the agent location map and the social adjacency map. -/
structure Environment where
  size : Nat
  neighborhoods : List Neighborhood
  agent_locations : List (Nat × Nat)
  network : List (Nat × List Nat)
deriving DecidableEq

/-- Environment.__init__(size): every neighborhood starts with supply 50,
demand 0, price 10; empty location and network maps. -/
def Environment.init (size : Nat) : Environment :=
  ⟨size, List.replicate size ⟨50, 0, 10⟩, [], []⟩

/-- First loop of place_agents: a uniformly random neighborhood per agent. -/
def placeLocationsLoop : List Agent → Nat → RNG → List (Nat × Nat) × RNG
  | [], _, r => ([], r)
  | a :: rest, size, r =>
    let (loc, r') := randInt 0 ((size : ℤ) - 1) r
    let (tl, r'') := placeLocationsLoop rest size r'
    ((a.id, loc.toNat) :: tl, r'')

/-- Second loop of place_agents: each agent gets randint(2,5) friends sampled
from the full id list (which includes the agent itself). -/
def buildNetworkLoop : List Nat → List Nat → RNG → Option (List (Nat × List Nat) × RNG)
  | [], _, r => some ([], r)
  | aid :: rest, agent_ids, r =>
    let (nf, r') := randInt 2 5 r
    match randSample nf.toNat agent_ids r' with
    | none => none
    | some (friends, r'') =>
      match buildNetworkLoop rest agent_ids r'' with
      | none => none
      | some (tl, r''') => some ((aid, friends) :: tl, r''')

/-- Environment.place_agents(agents). -/
def Environment.place_agents (env : Environment) (agents : List Agent) (r : RNG) :
    Option (Environment × RNG) :=
  let (locs, r1) := placeLocationsLoop agents env.size r
  match buildNetworkLoop (agents.map (fun a => a.id)) (agents.map (fun a => a.id)) r1 with
  | none => none
  | some (net, r2) =>
    some ({ env with agent_locations := locs, network := net }, r2)

/-- Lookup of agents_dict: the first agent with the given id. -/
def agentsLookup (agents : List Agent) (aid : Nat) : Option Agent :=
  agents.find? (fun a => a.id == aid)

/-- Environment.get_neighbors_behavior(agent_id, agents_dict): last decisions
of the friends present in the dict. -/
def Environment.get_neighbors_behavior (env : Environment) (agent_id : Nat)
    (agents : List Agent) : List Decision :=
  let friend_ids := (env.network.lookup agent_id).getD []
  friend_ids.filterMap (fun fid => (agentsLookup agents fid).map (fun a => a.last_decision))

/-- Environment.get_local_price(agent_id): direct dict indexing, none when a
KeyError would be raised. -/
def Environment.get_local_price (env : Environment) (agent_id : Nat) : Option ℚ :=
  match env.agent_locations.lookup agent_id with
  | none => none
  | some loc => (env.neighborhoods[loc]?).map (fun nb => nb.price)

/-- Environment.get_local_availability(agent_id): location defaults to 0 when
the agent is unplaced; the neighborhood itself is indexed directly. -/
def Environment.get_local_availability (env : Environment) (agent_id : Nat) : Option ℚ :=
  let loc := (env.agent_locations.lookup agent_id).getD 0
  (env.neighborhoods[loc]?).map (fun nb => nb.supply)

/-- Demand aggregation of update_market_dynamics: adds each agent's
last_consumption to its neighborhood's bucket; none models the KeyError on a
missing location or bucket. -/
def accumulateDemands : List Agent → List (Nat × Nat) → List ℚ → Option (List ℚ)
  | [], _, demands => some demands
  | a :: rest, locs, demands =>
    match locs.lookup a.id with
    | none => none
    | some loc =>
      match demands[loc]? with
      | none => none
      | some d => accumulateDemands rest locs (demands.set loc (d + a.last_consumption))

/-- Per-neighborhood update of update_market_dynamics: multiplicative price
response clamped to [1,1000] when supply is positive, then supply depletion
by 5 percent of demand floored at 0.1. -/
def updateNeighborhood (nb : Neighborhood) (demand : ℚ) : Neighborhood :=
  let nb' :=
    if nb.supply > 0 then
      { nb with
        price := max 1 (min 1000 (nb.price * (9/10 + (1/5) * (demand / nb.supply))))
        demand := demand }
    else nb
  { nb' with supply := max (1/10) (nb'.supply - demand * (1/20)) }

/-- Environment.update_market_dynamics(agents). -/
def Environment.update_market_dynamics (env : Environment) (agents : List Agent) :
    Option Environment :=
  match accumulateDemands agents env.agent_locations (List.replicate env.size 0) with
  | none => none
  | some demands =>
    some { env with neighborhoods :=
      (env.neighborhoods.zip demands).map (fun p => updateNeighborhood p.1 p.2) }

/-- Environment.get_macro_indicators(): mean price and summed demand. -/
def Environment.get_macro_indicators (env : Environment) : ℚ × ℚ :=
  ((env.neighborhoods.map (fun nb => nb.price)).sum / (env.neighborhoods.length : ℚ),
   (env.neighborhoods.map (fun nb => nb.demand)).sum)

/-- Weighted sum of the Gini numerator: np.sum((2 * index - n - 1) * incomes)
with index running from i over the sorted list. -/
def giniNumAux (n : ℤ) : ℤ → List ℚ → ℚ
  | _, [] => 0
  | i, x :: xs => ((2 * i - n - 1 : ℤ) : ℚ) * x + giniNumAux n (i + 1) xs

/-- SimulationEngine.calculate_gini(incomes): standard formula over sorted
incomes, 0 when the total is not positive. -/
def calculate_gini (incomes : List ℚ) : ℚ :=
  let sorted := incomes.insertionSort (fun x y => x ≤ y)
  let n : ℤ := sorted.length
  let s := sorted.sum
  if s > 0 then giniNumAux n 1 sorted / ((n : ℚ) * s) else 0

/-- History record appended by SimulationEngine.step. -/
structure HistoryRecord where
  step : Nat
  avg_price : ℚ
  total_demand : ℚ
  gini : ℚ
  compliance_rate : ℚ
  avg_stress : ℚ
deriving DecidableEq

/-- SimulationEngine state. The agents_dict of the source aliases the same
objects as the agents list, so it is derived by id lookup on the list. -/
structure SimulationEngine where
  seed : ℤ
  agents : List Agent
  env : Environment
  active_policies : List Policy
  history : List HistoryRecord
  current_step : Nat
deriving DecidableEq

/-- first policy of the given type among the active ones, as the next(...)
generator expressions of step() compute it. -/
def findPolicy (policies : List Policy) (t : PolicyType) : Option Policy :=
  policies.find? (fun p => p.type == t)

/-- Intended-effect loop of step(): each active housing policy adds its
subsidy to income and wealth; other types are skipped here. -/
def applyIntendedLoop : List Policy → Agent → Agent
  | [], a => a
  | p :: rest, a =>
    if p.type == PolicyType.HOUSING_RENT_SUBSIDY then
      let new_income := HousingRentSubsidy.apply_intended_effect p a.income
      applyIntendedLoop rest
        { a with wealth := a.wealth + (new_income - a.income), income := new_income }
    else applyIntendedLoop rest a

/-- Mutable state of the per-agent loop in step(). -/
structure LoopState where
  agents : List Agent
  total_evaded : Nat
  total_stress : ℚ
  total_tax_revenue : ℚ
  g : GlobalRNG

/-- Body of the per-agent loop of step() for the agent at index k: income
replenishment, intended policy effects, fuel-distorted price, consumption,
fuel tax collection, luxury tax and capital flight, social influence read
against the live agents_dict, compliance decision. -/
def stepProcessAgent (O : MathOracle) (policies : List Policy)
    (fuel luxury : Option Policy) (env : Environment) (base_penalty : ℚ)
    (st : LoopState) (k : Nat) : Option LoopState :=
  match st.agents[k]? with
  | none => none
  | some a0 =>
    let a1 := a0.update_income a0.income
    let a2 := applyIntendedLoop policies a1
    match env.get_local_price a2.id with
    | none => none
    | some price0 =>
      let price := match fuel with
        | some fp => FuelTaxWithRebate.apply_price_distortion fp price0
        | none => price0
      match env.get_local_availability a2.id with
      | none => none
      | some availability =>
        let ((actual_qty, a3), py1) := a2.decide_consumption price availability st.g.py
        let revenue1 := match fuel with
          | some fp => st.total_tax_revenue +
              actual_qty * price *
                (fp.get_param "tax_rate" / (1 + fp.get_param "tax_rate"))
          | none => st.total_tax_revenue
        let (a4, revenue2, npr1) := match luxury with
          | some lp =>
            let tax := LuxuryAssetTax.calculate_wealth_tax lp a3.wealth
            let a' := { a3 with wealth := a3.wealth - tax }
            let (u, npr') := randFloat st.g.npr
            if u < LuxuryAssetTax.get_capital_flight_probability lp a'.wealth then
              ({ a' with wealth := a'.wealth * (1/2),
                         stress_level := min 1 (a'.stress_level + 1/5) },
               revenue1 + tax, npr')
            else (a', revenue1 + tax, npr')
          | none => (a3, revenue1, st.g.npr)
        let a5 := a4.apply_social_influence
          (env.get_neighbors_behavior a4.id (st.agents.set k a4))
        let (dec, a6, py2) :=
          a5.decide_compliance O base_penalty (price * (3/5)) py1
        some { agents := st.agents.set k a6
               total_evaded := st.total_evaded + (if dec = Decision.evade then 1 else 0)
               total_stress := st.total_stress + a6.stress_level
               total_tax_revenue := revenue2
               g := ⟨py2, npr1⟩ }

/-- Per-agent loop of step() over the given agent indices. -/
def stepLoop (O : MathOracle) (policies : List Policy) (fuel luxury : Option Policy)
    (env : Environment) (base_penalty : ℚ) :
    LoopState → List Nat → Option LoopState
  | st, [] => some st
  | st, k :: ks =>
    match stepProcessAgent O policies fuel luxury env base_penalty st k with
    | none => none
    | some st' => stepLoop O policies fuel luxury env base_penalty st' ks

/-- Rebate loop of step(): each agent's wealth grows by the per-agent rebate
share; income itself is left unchanged. -/
def rebateLoop (fp : Policy) (total_revenue : ℚ) (n : Nat) : List Agent → List Agent
  | [] => []
  | a :: rest =>
    let rebate := FuelTaxWithRebate.apply_intended_effect fp a.income total_revenue n
    { a with wealth := a.wealth + (rebate - a.income) } :: rebateLoop fp total_revenue n rest

/-- Housing distortion of step(): every neighborhood's price is multiplied by
1 + factor, with no upper clamp. -/
def applyHousingDistortion (_p : Policy) (nbs : List Neighborhood) : List Neighborhood :=
  nbs.map (fun nb =>
    { nb with price := nb.price *
        (1 + HousingRentSubsidy.apply_distortion_mechanism nb.demand nb.supply) })

/-- Food ceiling distortion of step(): supply contracts, floored at 0.1. -/
def applyFoodDistortion (p : Policy) (nbs : List Neighborhood) : List Neighborhood :=
  nbs.map (fun nb =>
    { nb with supply := max (1/10) (nb.supply * FoodPriceCeiling.supply_contraction p nb.price) })

/-- Distortion block of step(), in policy activation order. -/
def applyDistortions : List Policy → Environment → Environment
  | [], env => env
  | p :: rest, env =>
    let env1 :=
      if p.type == PolicyType.HOUSING_RENT_SUBSIDY then
        { env with neighborhoods := applyHousingDistortion p env.neighborhoods }
      else env
    let env2 :=
      if p.type == PolicyType.FOOD_PRICE_CEILING then
        { env1 with neighborhoods := applyFoodDistortion p env1.neighborhoods }
      else env1
    applyDistortions rest env2

/-- Tail of step() after the agent loop: fuel rebate redistribution, market
update, distortions, macro aggregation and history append. -/
def stepFinish (e : SimulationEngine) (fuel : Option Policy) (st : LoopState) :
    Option (SimulationEngine × HistoryRecord × GlobalRNG) :=
  let agents1 := match fuel with
    | some fp =>
      if st.total_tax_revenue > 0 then
        rebateLoop fp st.total_tax_revenue st.agents.length st.agents
      else st.agents
    | none => st.agents
  (e.env.update_market_dynamics agents1).map (fun env1 =>
    let env2 := applyDistortions e.active_policies env1
    let mi := env2.get_macro_indicators
    let gini := calculate_gini (agents1.map (fun a => a.income))
    let rcd : HistoryRecord :=
      { step := e.current_step + 1
        avg_price := mi.1
        total_demand := mi.2
        gini := gini
        compliance_rate := 1 - (st.total_evaded : ℚ) / (e.agents.length : ℚ)
        avg_stress := st.total_stress / (e.agents.length : ℚ) }
    ({ e with agents := agents1
              env := env2
              history := e.history ++ [rcd]
              current_step := e.current_step + 1 }, rcd, st.g))

/-- SimulationEngine.step(): one month of simulation; none models the
ZeroDivisionError on an empty population or a KeyError inside the loop. -/
def SimulationEngine.step (O : MathOracle) (e : SimulationEngine) (g : GlobalRNG) :
    Option (SimulationEngine × HistoryRecord × GlobalRNG) :=
  if e.agents.length = 0 then none
  else
    let base_penalty0 := 2 + (e.active_policies.length : ℚ) * (3/2)
    let base_penalty := match e.history.getLast? with
      | some h => base_penalty0 + (1 - h.compliance_rate) * 10
      | none => base_penalty0
    let fuel := findPolicy e.active_policies .FUEL_TAX_REBATE
    let luxury := findPolicy e.active_policies .LUXURY_ASSET_TAX
    match stepLoop O e.active_policies fuel luxury e.env base_penalty
        ⟨e.agents, 0, 0, 0, g⟩ (List.range e.agents.length) with
    | none => none
    | some st => stepFinish e fuel st

/-- SimulationEngine.run(steps): iterates step, collecting the records. -/
def SimulationEngine.run (O : MathOracle) :
    Nat → SimulationEngine → GlobalRNG →
    Option (SimulationEngine × List HistoryRecord × GlobalRNG)
  | 0, e, g => some (e, [], g)
  | k+1, e, g =>
    match e.step O g with
    | none => none
    | some (e', rcd, g') =>
      match SimulationEngine.run O k e' g' with
      | none => none
      | some (e'', rcds, g'') => some (e'', rcd :: rcds, g'')

/-- SimulationEngine.__init__(population_size, seed): generates the
population (reseeding both global generators), builds the environment with
max(1, population_size // 10) neighborhoods and places the agents. The
incoming generator state is discarded by the reseed, exactly as in Python. -/
def SimulationEngine.init (W : World) (O : MathOracle) (population_size : ℤ)
    (seed : ℤ) (_g : GlobalRNG) : Option (SimulationEngine × GlobalRNG) :=
  let (agents, g1) := generate_population W O population_size seed
  let env0 := Environment.init (max 1 (Int.fdiv population_size 10)).toNat
  match env0.place_agents agents g1.py with
  | none => none
  | some (env1, py') =>
    some ({ seed := seed
            agents := agents
            env := env1
            active_policies := []
            history := []
            current_step := 0 }, { g1 with py := py' })

/-- Construction followed by add_policy calls and run(steps): the boundary
usage pattern of the engine. -/
def constructAndRun (W : World) (O : MathOracle) (population_size seed : ℤ)
    (policies : List Policy) (steps : Nat) (g : GlobalRNG) :
    Option (SimulationEngine × List HistoryRecord × GlobalRNG) :=
  match SimulationEngine.init W O population_size seed g with
  | none => none
  | some (e, g1) =>
    SimulationEngine.run O steps { e with active_policies := policies } g1

/-- Projection: final neighborhoods of a finished construct-and-run, empty
when the run raised. -/
def envNbs (o : Option (SimulationEngine × List HistoryRecord × GlobalRNG)) :
    List Neighborhood :=
  match o with
  | some (e, _, _) => e.env.neighborhoods
  | none => []

/-- Projection: income and base_income of the agent at index i after a step,
none when the step raised. -/
def incomeBaseAt (o : Option (SimulationEngine × HistoryRecord × GlobalRNG))
    (i : Nat) : Option (ℚ × ℚ) :=
  match o with
  | some (e, _, _) => (e.agents[i]?).map (fun a => (a.income, a.base_income))
  | none => none

/-- Projection: the agents of a freshly constructed engine, none when the
construction raised. -/
def initAgents (o : Option (SimulationEngine × GlobalRNG)) : Option (List Agent) :=
  o.map (fun p => p.1.agents)

/-- Alert record: type, severity, mechanism. -/
structure Alert where
  type : String
  severity : String
  mechanism : String
deriving DecidableEq

/-- Metrics block of an analysis result. -/
structure EmergenceMetrics where
  price_acceleration : ℚ
  volatility : ℚ
  compliance_instability : ℚ
deriving DecidableEq

/-- Result dict of EmergenceDetector.analyze. The metrics key is present only
on the long-history branch, hence an Option: none models a returned dict
without a metrics entry. -/
structure EmergenceAnalysis where
  unintended_consequence_index : ℚ
  alerts : List Alert
  metrics : Option EmergenceMetrics
deriving DecidableEq

/-- np.diff. -/
def npDiff (l : List ℚ) : List ℚ := (l.zip l.tail).map (fun p => p.2 - p.1)

/-- Python slice series[-w:]; for w = 0 this is the whole list, as -0 == 0. -/
def lastSlice (w : Nat) (l : List ℚ) : List ℚ :=
  if w = 0 then l else l.drop (l.length - w)

/-- Python slice series[:-w]; for w = 0 this is the empty list. -/
def dropLastSlice (w : Nat) (l : List ℚ) : List ℚ :=
  if w = 0 then [] else l.take (l.length - w)

/-- np.mean (0 on the empty list where numpy would give NaN; every use on the
analysis path has a nonempty argument). -/
def npMean (l : List ℚ) : ℚ := l.sum / (l.length : ℚ)

/-- np.std via the abstract square root. -/
def npStd (O : MathOracle) (l : List ℚ) : ℚ :=
  O.sqrt (npMean (l.map (fun x => (x - npMean l) ^ 2)))

/-- Python round(x, 1) modelled as half-up rounding to one decimal. -/
def round1 (x : ℚ) : ℚ := (⌊10 * x + 1/2⌋ : ℤ) / 10

/-- Python round(x, 2) modelled as half-up rounding to two decimals. -/
def round2 (x : ℚ) : ℚ := (⌊100 * x + 1/2⌋ : ℤ) / 100

/-- EmergenceDetector.detect_acceleration: mean second difference over the
recent window, normalized by the mean price plus epsilon. -/
def EmergenceDetector.detect_acceleration (w : Nat) (series : List ℚ) : ℚ :=
  let diff2 := npDiff (npDiff series)
  if diff2.length = 0 then 0
  else npMean (lastSlice w diff2) / (npMean series + 1/1000000)

/-- EmergenceDetector.detect_volatility_burst: recent over historical standard
deviation minus one, floored at zero. -/
def EmergenceDetector.detect_volatility_burst (O : MathOracle) (w : Nat)
    (series : List ℚ) : ℚ :=
  let recent := npStd O (lastSlice w series)
  let historical := npStd O (dropLastSlice w series)
  if historical = 0 then 0 else max 0 (recent / historical - 1)

/-- EmergenceDetector.detect_sudden_drop: historical minus recent mean,
floored at zero. -/
def EmergenceDetector.detect_sudden_drop (w : Nat) (series : List ℚ) : ℚ :=
  if series.length < 2 then 0
  else max 0 (npMean (dropLastSlice w series) - npMean (lastSlice w series))

/-- EmergenceDetector.detect_trend: the slope of the degree-one least-squares
fit that np.polyfit computes. -/
def EmergenceDetector.detect_trend (series : List ℚ) : ℚ :=
  let n : ℚ := series.length
  let xs := (List.range series.length).map (fun i => (i : ℚ))
  let sx := xs.sum
  let sy := series.sum
  let sxy := ((xs.zip series).map (fun p => p.1 * p.2)).sum
  let sxx := (xs.map (fun x => x * x)).sum
  (n * sxy - sx * sy) / (n * sxx - sx * sx)

/-- Alert emitted for price acceleration above 0.5. -/
def priceSpiralAlert : Alert :=
  ⟨"Price Spiral", "High",
   "Housing subsidies and local supply constraints combined to drive nonlinear price inflation."⟩

/-- Alert emitted for a volatility burst above 0.3. -/
def marketInstabilityAlert : Alert :=
  ⟨"Market Instability", "Medium",
   "High variance in prices indicates the system is losing equilibrium."⟩

/-- Alert emitted for a compliance drop above 0.2. -/
def complianceCollapseAlert : Alert :=
  ⟨"Compliance Collapse", "Critical",
   "Policy incentives or peer influence triggered a phase transition into informal market activity."⟩

/-- Alert emitted for rising stress with falling inequality. -/
def stressDecouplingAlert : Alert :=
  ⟨"Stress Decoupling", "Medium",
   "Inequality is falling, but agent frustration is rising due to shortages or price caps."⟩

/-- Long-branch result construction of analyze from the four signal values:
conditional alerts and scores in fixed order, capped index, rounded metrics. -/
def buildAnalysis (price_accel price_volatility compliance_drop : ℚ)
    (decoupling : Bool) : EmergenceAnalysis :=
  let a1 : List Alert := if price_accel > 1/2 then [priceSpiralAlert] else []
  let s1 : List ℚ := if price_accel > 1/2 then [price_accel * 40] else []
  let a2 : List Alert := if price_volatility > 3/10 then [marketInstabilityAlert] else []
  let s2 : List ℚ := if price_volatility > 3/10 then [price_volatility * 20] else []
  let a3 : List Alert := if compliance_drop > 1/5 then [complianceCollapseAlert] else []
  let s3 : List ℚ := if compliance_drop > 1/5 then [compliance_drop * 50] else []
  let a4 : List Alert := if decoupling then [stressDecouplingAlert] else []
  let s4 : List ℚ := if decoupling then [20] else []
  let uci := min 100 (s1 ++ s2 ++ s3 ++ s4).sum
  { unintended_consequence_index := round1 uci
    alerts := a1 ++ a2 ++ a3 ++ a4
    metrics := some ⟨round2 price_accel, round2 price_volatility, round2 compliance_drop⟩ }

/-- EmergenceDetector.analyze(history) with window_size w: zero-signal result
without a metrics entry below 2*w records, otherwise the four signals feed
buildAnalysis. -/
def EmergenceDetector.analyze (O : MathOracle) (w : Nat)
    (history : List HistoryRecord) : EmergenceAnalysis :=
  if history.length < w * 2 then ⟨0, [], none⟩
  else
    let prices := history.map (fun h => h.avg_price)
    let giniSeries := history.map (fun h => h.gini)
    let compliance := history.map (fun h => h.compliance_rate)
    let stress := history.map (fun h => h.avg_stress)
    buildAnalysis
      (EmergenceDetector.detect_acceleration w prices)
      (EmergenceDetector.detect_volatility_burst O w prices)
      (EmergenceDetector.detect_sudden_drop w compliance)
      (decide (EmergenceDetector.detect_trend stress > 0 ∧
        EmergenceDetector.detect_trend giniSeries < 0))

/-- Constant world whose streams always yield 1/2: a legal instantiation of
the abstract generator families. -/
def constW : World := ⟨fun _ _ => 1/2, fun _ _ => 1/2⟩

/-- Constant world whose streams always yield 0. -/
def zeroW : World := ⟨fun _ _ => 0, fun _ _ => 0⟩

/-- Concrete oracle: exp constantly 1, lognormal incomes constantly 10000,
sqrt constantly 0; positive where the real functions are positive. -/
def constO : MathOracle := ⟨fun _ => 1, fun _ _ _ => 10000, fun _ => 0⟩

/-- Seeded generator pair of the constant world. -/
def constG : GlobalRNG := seedAll constW 0

/-- A constant all-zero stream. -/
def zeroRNG : RNG := ⟨fun _ => 0, 0⟩

/-- Test agent for concrete runs. -/
def mkTestAgent (i : Nat) : Agent := Agent.init i 1000 700 (1/2) (1/2) (1/10)

/-- Five test agents with ids 0..4. -/
def testAgents : List Agent := (List.range 5).map mkTestAgent

/-- Concrete construct-and-run: 5 agents, seed 0, one housing subsidy policy,
three steps, on the constant world and oracle. -/
def housingRun : Option (SimulationEngine × List HistoryRecord × GlobalRNG) :=
  constructAndRun constW constO 5 0 [HousingRentSubsidy 800 2000] 3 constG

/-- Concrete construct-and-run with no policies, one step. -/
def noPolicyRun : Option (SimulationEngine × List HistoryRecord × GlobalRNG) :=
  constructAndRun constW constO 5 0 [] 1 constG

/-- Concrete single-agent engine state for the housing-subsidy step witness:
one neighborhood, the agent placed at 0 with no friends, exactly one housing
policy with subsidy 800 and threshold 2000. -/
def housingEngine : SimulationEngine :=
  { seed := 0
    agents := [mkTestAgent 0]
    env := { size := 1
             neighborhoods := [⟨50, 0, 10⟩]
             agent_locations := [(0, 0)]
             network := [(0, [])] }
    active_policies := [HousingRentSubsidy 800 2000]
    history := []
    current_step := 0 }

/-- Validity of the abstract math primitives: the exponential and the
lognormal sampler are positive, the square root is nonnegative on
nonnegative inputs. -/
def MathOracle.Valid (O : MathOracle) : Prop :=
  (∀ x, 0 < O.exp x) ∧ (∀ m s u, 0 < O.lognormal m s u) ∧
    (∀ x, 0 ≤ x → 0 ≤ O.sqrt x)

/-- Projection: the network entry of an agent after place_agents, none when
placement raised or the agent is absent. -/
def placedNetworkOf (o : Option (Environment × RNG)) (aid : Nat) : Option (List Nat) :=
  match o with
  | some (env, _) => env.network.lookup aid
  | none => none

set_option maxRecDepth 40000

/-- Streams of the constant world are valid draws. -/
theorem constW_valid : World.Valid constW := by
  intro s n
  refine ⟨⟨?_, ?_⟩, ?_, ?_⟩ <;> norm_num [constW]

/-- The all-zero stream is a valid draw stream. -/
theorem zeroRNG_valid : RNG.Valid zeroRNG := by
  intro n
  refine ⟨?_, ?_⟩ <;> norm_num [zeroRNG]

/-- The concrete oracle satisfies the positivity contracts of the real
functions it abstracts. -/
theorem constO_valid : MathOracle.Valid constO := by
  refine ⟨fun x => ?_, fun m s u => ?_, fun x hx => ?_⟩ <;> norm_num [constO]

/-- C1: the claim says every step() completes and in particular the fuel-tax
and luxury-tax lookups never fail. The generator filter at
simulation_engine.py line 43 is lazy: with no active policies the attribute
PolicyType.FUEL_TAX_REBATE is never accessed and the lookup yields the
default None, so a no-policy step() completes; but the enum written in
policy_definitions.py lacks the member, so as soon as at least one policy is
active the first filter evaluation raises AttributeError and step() fails,
refuting the claim for every nonempty policy sequence (the LUXURY_ASSET_TAX
member itself does exist). -/
theorem c1_fuel_tax_lookup_attribute_error :
    fuelTaxLookup policyTypeMembers [] = some none ∧
      fuelTaxLookup policyTypeMembers [HousingRentSubsidy 800 2000] = none ∧
      (∀ (p : Policy) (rest : List Policy),
        fuelTaxLookup policyTypeMembers (p :: rest) = none) ∧
      enumLookup policyTypeMembers "LUXURY_ASSET_TAX" = some "LUXURY_ASSET_TAX" := by
  have hmem : enumLookup policyTypeMembers "FUEL_TAX_REBATE" = none := by decide
  refine ⟨rfl, ?_, ?_, by decide⟩
  · simp only [fuelTaxLookup, hmem]
  · intro p rest
    simp only [fuelTaxLookup, hmem]

/-- C6: for a fixed population size, seed, policy sequence and step count,
the constructed-and-run engine produces an identical result whatever the
prior state of the global generators: construction reseeds both generators
from the seed (random.seed, np.random.seed), discarding inherited state, so
two independently constructed engines yield identical history sequences. -/
theorem c6_construct_and_run_deterministic (W : World) (O : MathOracle)
    (population_size seed : ℤ) (policies : List Policy) (steps : Nat)
    (g g' : GlobalRNG) :
    constructAndRun W O population_size seed policies steps g =
      constructAndRun W O population_size seed policies steps g' := rfl

/-- C8: analyze on a history shorter than 2 times the window size returns
index 0, no alerts and no metrics entry. -/
theorem c8_short_history_zero_signal (O : MathOracle) (w : Nat)
    (history : List HistoryRecord) (h : history.length < w * 2) :
    EmergenceDetector.analyze O w history = ⟨0, [], none⟩ := by
  unfold EmergenceDetector.analyze
  rw [if_pos h]

/-- C8 witness: the empty history with the default window size 6. -/
theorem c8_short_history_zero_signal_witness :
    ([] : List HistoryRecord).length < 6 * 2 ∧
      EmergenceDetector.analyze constO 6 [] = ⟨0, [], none⟩ :=
  ⟨by decide, c8_short_history_zero_signal constO 6 [] (by decide)⟩

/-- C2 counterexample: a concrete reachable run violating the claimed price
ceiling. Population 5, seed 0, a single HousingRentSubsidy(800, 2000), three
steps on valid constant streams: the housing distortion multiplies the
already clamped price by 1 + factor after the market update, and the final
neighborhood price is 11500/3 > 1000. -/
theorem c2_counterexample_price_exceeds_1000 :
    World.Valid constW ∧ MathOracle.Valid constO ∧
      ∃ nb ∈ envNbs housingRun, 1000 < nb.price :=
  ⟨constW_valid, constO_valid, by decide⟩

/-- C3 counterexample: construction does not fail fast. With population_size
0 the constructor returns an engine with an empty population instead of
raising, and with population_size 1 construction raises (random.sample asks
for at least 2 friends from a 1-element population), refuting both halves of
the claim on valid streams. -/
theorem c3_counterexample_no_fail_fast :
    World.Valid constW ∧
      initAgents (SimulationEngine.init constW constO 0 42 constG) = some [] ∧
      initAgents (SimulationEngine.init constW constO 1 42 constG) = none :=
  ⟨constW_valid, by decide, by decide⟩

/-- C4 counterexample: self-exclusion is not guaranteed. On a 5-agent
population with the valid all-zero stream, place_agents gives agent 0 the
friend list [0, 1], which contains its own id, because random.sample draws
from the full id list including the agent itself. -/
theorem c4_counterexample_self_in_network :
    RNG.Valid zeroRNG ∧
      ∃ l, placedNetworkOf ((Environment.init 1).place_agents testAgents zeroRNG) 0 =
        some l ∧ 0 ∈ l :=
  ⟨zeroRNG_valid, [0, 1], by decide, by decide⟩

/-- C5 counterexample: on a history shorter than twice the window size the
returned dict has no metrics entry at all, refuting the claim for every
history list. -/
theorem c5_counterexample_metrics_missing :
    (EmergenceDetector.analyze constO 6 []).metrics = none := by decide

/-- C7 counterexample: on the income list [-1, 2] the Gini formula yields
3/2, which exceeds (n-1)/n = 1/2, so the claimed bound fails for income
lists with negative entries. -/
theorem c7_counterexample_negative_income :
    calculate_gini [-1, 2] = 3/2 ∧ ((2:ℚ) - 1) / 2 < 3/2 := by
  refine ⟨by decide, by norm_num⟩

/-- C9: decide_consumption realizes min(target, wealth/max(price, 0.1),
availability) with target = consumption_need times a multiplier in
[0.9, 1.1], debits wealth by realized times price, records last_consumption,
and moves stress asymmetrically with clamping to [0,1]. -/
theorem c9_decide_consumption_spec (a : Agent) (price availability : ℚ)
    (r : RNG) (hr : r.Valid) :
    ∃ m q a', 9/10 ≤ m ∧ m ≤ 11/10 ∧
      (a.decide_consumption price availability r).1 = (q, a') ∧
      q = min (min (a.consumption_need * m) (a.wealth / max (1/10) price)) availability ∧
      a'.wealth = a.wealth - q * price ∧
      a'.last_consumption = q ∧
      a'.stress_level = max 0 (min 1
        (if q < a.consumption_need * (4/5) then
          a.stress_level + 1/20 +
            ((a.consumption_need * (4/5) - q) / (a.consumption_need * (4/5))) * (3/20)
        else a.stress_level - 3/100)) := by
  obtain ⟨h0, h1⟩ := hr r.pos
  refine ⟨11/10 - (1/5) * r.vals r.pos, _, _, by linarith, by linarith, rfl,
    rfl, rfl, rfl, rfl⟩

/-- C9 witness: a concrete agent, price 10, availability 50 and the constant
valid stream. -/
theorem c9_decide_consumption_spec_witness :
    RNG.Valid constG.py ∧
      ∃ m q a', 9/10 ≤ m ∧ m ≤ 11/10 ∧
        ((mkTestAgent 0).decide_consumption 10 50 constG.py).1 = (q, a') ∧
        q = min (min ((mkTestAgent 0).consumption_need * m)
          ((mkTestAgent 0).wealth / max (1/10) 10)) 50 ∧
        a'.wealth = (mkTestAgent 0).wealth - q * 10 ∧
        a'.last_consumption = q ∧
        a'.stress_level = max 0 (min 1
          (if q < (mkTestAgent 0).consumption_need * (4/5) then
            (mkTestAgent 0).stress_level + 1/20 +
              (((mkTestAgent 0).consumption_need * (4/5) - q) /
                ((mkTestAgent 0).consumption_need * (4/5))) * (3/20)
          else (mkTestAgent 0).stress_level - 3/100)) :=
  have hv : RNG.Valid constG.py := fun n => (constW_valid 0 n).1
  ⟨hv, c9_decide_consumption_spec (mkTestAgent 0) 10 50 constG.py hv⟩

/-- Weighted Gini numerator of a constant list in closed form. -/
theorem giniNumAux_const (c : ℚ) :
    ∀ (l : List ℚ) (n i : ℤ), (∀ x ∈ l, x = c) →
      giniNumAux n i l =
        c * ((l.length : ℚ) * (((2 * i - n - 1 : ℤ) : ℚ)) +
          (l.length : ℚ) * ((l.length : ℚ) - 1)) := by
  intro l
  induction l with
  | nil => intro n i _; simp [giniNumAux]
  | cons x xs ih =>
    intro n i hall
    have hx : x = c := hall x (List.mem_cons_self x xs)
    have hxs : ∀ y ∈ xs, y = c := fun y hy => hall y (List.mem_cons_of_mem x hy)
    rw [giniNumAux, ih n (i + 1) hxs, hx]
    simp only [List.length_cons]
    push_cast
    ring

/-- Weighted Gini numerator bound for nonnegative lists: every coefficient
2*index - n - 1 is at most n - 1 while the indices stay at most n. -/
theorem giniNumAux_le (l : List ℚ) :
    ∀ (n i : ℤ), (∀ x ∈ l, 0 ≤ x) → i + l.length ≤ n + 1 →
      giniNumAux n i l ≤ ((n : ℚ) - 1) * l.sum := by
  induction l with
  | nil => intro n i _ _; simp [giniNumAux]
  | cons x xs ih =>
    intro n i hall hle
    have hx : 0 ≤ x := hall x (List.mem_cons_self x xs)
    have hxs : ∀ y ∈ xs, 0 ≤ y := fun y hy => hall y (List.mem_cons_of_mem x hy)
    have hlen : ((x :: xs).length : ℤ) = (xs.length : ℤ) + 1 := by
      simp
    have hle' : i + 1 + (xs.length : ℤ) ≤ n + 1 := by
      rw [hlen] at hle; omega
    have hcoef : (2 * i - n - 1 : ℤ) ≤ n - 1 := by
      rw [hlen] at hle; omega
    have hcoefQ : ((2 * i - n - 1 : ℤ) : ℚ) ≤ (n : ℚ) - 1 := by
      exact_mod_cast hcoef
    have hterm : ((2 * i - n - 1 : ℤ) : ℚ) * x ≤ ((n : ℚ) - 1) * x :=
      mul_le_mul_of_nonneg_right hcoefQ hx
    have htail := ih n (i + 1) hxs hle'
    rw [giniNumAux, List.sum_cons, mul_add]
    linarith

/-- C7 amended: for every nonempty list of nonnegative incomes, the Gini of
identical incomes is exactly 0 (including a zero total), and the Gini never
exceeds (n-1)/n. -/
theorem c7_gini_properties (incomes : List ℚ) (hne : incomes ≠ [])
    (hpos : ∀ x ∈ incomes, 0 ≤ x) :
    ((∀ x ∈ incomes, ∀ y ∈ incomes, x = y) → calculate_gini incomes = 0) ∧
      calculate_gini incomes ≤ ((incomes.length : ℚ) - 1) / (incomes.length : ℚ) := by
  have hperm : List.Perm (incomes.insertionSort (fun x y => x ≤ y)) incomes :=
    List.perm_insertionSort _ incomes
  have hlen : (incomes.insertionSort (fun x y => x ≤ y)).length = incomes.length :=
    hperm.length_eq
  have hsum : (incomes.insertionSort (fun x y => x ≤ y)).sum = incomes.sum :=
    hperm.sum_eq
  have hmem : ∀ x ∈ incomes.insertionSort (fun x y => x ≤ y), x ∈ incomes :=
    fun x hx => hperm.mem_iff.mp hx
  have hn1 : 1 ≤ incomes.length := by
    cases incomes with
    | nil => exact absurd rfl hne
    | cons a l => simp
  have hnQ : (1 : ℚ) ≤ (incomes.length : ℚ) := by
    exact_mod_cast hn1
  constructor
  · intro hall
    obtain ⟨c, hcmem⟩ := List.exists_mem_of_ne_nil incomes hne
    have hc : ∀ x ∈ incomes.insertionSort (fun x y => x ≤ y), x = c :=
      fun x hx => hall x (hmem x hx) c hcmem
    have hnum := giniNumAux_const c (incomes.insertionSort (fun x y => x ≤ y))
      (incomes.length : ℤ) 1 hc
    rw [hlen] at hnum
    have hzero : c * ((incomes.length : ℚ) *
        (((2 * 1 - (incomes.length : ℤ) - 1 : ℤ)) : ℚ) +
        (incomes.length : ℚ) * ((incomes.length : ℚ) - 1)) = 0 := by
      push_cast
      ring
    simp only [calculate_gini]
    rw [hlen, hnum, hzero]
    split
    · simp
    · rfl
  · have hb := giniNumAux_le (incomes.insertionSort (fun x y => x ≤ y))
      (incomes.length : ℤ) 1 (fun x hx => hpos x (hmem x hx)) (by rw [hlen]; omega)
    rw [hsum] at hb
    simp only [calculate_gini]
    rw [hlen, hsum]
    split
    · rename_i hs
      rw [div_le_div_iff₀ (by positivity) (by positivity)]
      calc giniNumAux (incomes.length : ℤ) 1 (incomes.insertionSort (fun x y => x ≤ y)) *
            (incomes.length : ℚ)
          ≤ (((incomes.length : ℚ)) - 1) * incomes.sum * (incomes.length : ℚ) :=
            mul_le_mul_of_nonneg_right hb (by linarith)
        _ = ((incomes.length : ℚ) - 1) * ((incomes.length : ℚ) * incomes.sum) := by ring
    · exact div_nonneg (by linarith) (by linarith)

/-- C7 witness: the constant list [2, 2] is nonempty and nonnegative, its
Gini is exactly 0 and the bound (n-1)/n holds. -/
theorem c7_gini_properties_witness :
    ([2, 2] : List ℚ) ≠ [] ∧ (∀ x ∈ ([2, 2] : List ℚ), 0 ≤ x) ∧
      calculate_gini [2, 2] = 0 ∧
      calculate_gini [2, 2] ≤
        ((([2, 2] : List ℚ).length : ℚ) - 1) / (([2, 2] : List ℚ).length : ℚ) := by
  have h1 : ([2, 2] : List ℚ) ≠ [] := by decide
  have h2 : ∀ x ∈ ([2, 2] : List ℚ), 0 ≤ x := by decide
  have h3 : ∀ x ∈ ([2, 2] : List ℚ), ∀ y ∈ ([2, 2] : List ℚ), x = y := by decide
  exact ⟨h1, h2, (c7_gini_properties [2, 2] h1 h2).1 h3,
    (c7_gini_properties [2, 2] h1 h2).2⟩

/-- Sum of a list of nonnegative rationals is nonnegative (helper). -/
theorem list_sum_nonneg (l : List ℚ) (h : ∀ x ∈ l, 0 ≤ x) : 0 ≤ l.sum := by
  induction l with
  | nil => simp
  | cons x xs ih =>
    have hx := h x (List.mem_cons_self x xs)
    have hxs := ih (fun y hy => h y (List.mem_cons_of_mem x hy))
    rw [List.sum_cons]
    linarith

/-- Half-up rounding to one decimal stays within [0, 100] (helper). -/
theorem round1_bounds (x : ℚ) (h0 : 0 ≤ x) (h100 : x ≤ 100) :
    0 ≤ round1 x ∧ round1 x ≤ 100 := by
  have hlow : (0 : ℤ) ≤ ⌊10 * x + 1/2⌋ := by
    rw [Int.le_floor]
    push_cast
    linarith
  have hhigh : ⌊10 * x + 1/2⌋ < 1001 := by
    rw [Int.floor_lt]
    push_cast
    linarith
  unfold round1
  constructor
  · apply div_nonneg _ (by norm_num)
    exact_mod_cast hlow
  · rw [div_le_iff₀ (by norm_num)]
    have hle : ((⌊10 * x + 1/2⌋ : ℤ) : ℚ) ≤ 1000 := by
      exact_mod_cast Int.lt_add_one_iff.mp hhigh
    linarith

/-- Sum of a conditional singleton score with a positivity-threshold guard is
nonnegative (helper). -/
theorem ite_score_sum_nonneg (c : Prop) [Decidable c] (x : ℚ) (hx : c → 0 ≤ x) :
    0 ≤ (if c then [x] else []).sum := by
  split
  · rename_i hc
    simpa using hx hc
  · simp

/-- A conditional singleton is a sublist of that singleton (helper). -/
theorem ite_singleton_sublist {α : Type} (c : Prop) [Decidable c] (x : α) :
    (if c then [x] else []).Sublist [x] := by
  split
  · exact List.Sublist.refl [x]
  · exact List.nil_sublist [x]


/-- Contract of the long-branch construction: metrics present, index within
[0, 100], alerts an ordered sublist of the four canonical records (helper). -/
theorem buildAnalysis_contract (pa pv cd : ℚ) (dc : Bool) :
    (buildAnalysis pa pv cd dc).metrics.isSome ∧
      0 ≤ (buildAnalysis pa pv cd dc).unintended_consequence_index ∧
      (buildAnalysis pa pv cd dc).unintended_consequence_index ≤ 100 ∧
      (buildAnalysis pa pv cd dc).alerts.Sublist
        [priceSpiralAlert, marketInstabilityAlert, complianceCollapseAlert,
         stressDecouplingAlert] := by
  have h1 := ite_score_sum_nonneg (pa > 1/2) (pa * 40) (fun hc => by linarith)
  have h2 := ite_score_sum_nonneg (pv > 3/10) (pv * 20) (fun hc => by linarith)
  have h3 := ite_score_sum_nonneg (cd > 1/5) (cd * 50) (fun hc => by linarith)
  have h4 := ite_score_sum_nonneg (dc = true) (20 : ℚ) (fun _ => by norm_num)
  have hsum : 0 ≤ ((if pa > 1/2 then [pa * 40] else []) ++
      (if pv > 3/10 then [pv * 20] else []) ++
      (if cd > 1/5 then [cd * 50] else []) ++
      (if dc then [(20 : ℚ)] else [])).sum := by
    rw [List.sum_append, List.sum_append, List.sum_append]
    linarith
  have hb := round1_bounds _ (le_min (by norm_num) hsum) (min_le_left (100 : ℚ) _)
  refine ⟨rfl, hb.1, hb.2, ?_⟩
  have e1 := ite_singleton_sublist (pa > 1/2) priceSpiralAlert
  have e2 := ite_singleton_sublist (pv > 3/10) marketInstabilityAlert
  have e3 := ite_singleton_sublist (cd > 1/5) complianceCollapseAlert
  have e4 := ite_singleton_sublist (dc = true) stressDecouplingAlert
  exact ((e1.append e2).append e3).append e4

/-- C5 amended: for every history of length at least 2 times the window size,
analyze returns a result with an index in [0, 100], an alerts list that is an
ordered sublist of the four alert records (Price Spiral, Market Instability,
Compliance Collapse, Stress Decoupling, in activation order), and a present
metrics entry with the three rounded signals; shorter histories lack the
metrics entry, as the counterexample shows. -/
theorem c5_analyze_contract (O : MathOracle) (w : Nat) (history : List HistoryRecord)
    (h : ¬ history.length < w * 2) :
    (EmergenceDetector.analyze O w history).metrics.isSome ∧
      0 ≤ (EmergenceDetector.analyze O w history).unintended_consequence_index ∧
      (EmergenceDetector.analyze O w history).unintended_consequence_index ≤ 100 ∧
      (EmergenceDetector.analyze O w history).alerts.Sublist
        [priceSpiralAlert, marketInstabilityAlert, complianceCollapseAlert,
         stressDecouplingAlert] := by
  unfold EmergenceDetector.analyze
  rw [if_neg h]
  exact buildAnalysis_contract _ _ _ _

/-- C5 amended witness: a flat 2-record history with window size 1. -/
theorem c5_analyze_contract_witness :
    ¬ ([⟨1, 10, 0, 0, 1, 0⟩, ⟨2, 10, 0, 0, 1, 0⟩] : List HistoryRecord).length < 1 * 2 ∧
      (EmergenceDetector.analyze constO 1
        [⟨1, 10, 0, 0, 1, 0⟩, ⟨2, 10, 0, 0, 1, 0⟩]).metrics.isSome ∧
      0 ≤ (EmergenceDetector.analyze constO 1
        [⟨1, 10, 0, 0, 1, 0⟩, ⟨2, 10, 0, 0, 1, 0⟩]).unintended_consequence_index ∧
      (EmergenceDetector.analyze constO 1
        [⟨1, 10, 0, 0, 1, 0⟩, ⟨2, 10, 0, 0, 1, 0⟩]).unintended_consequence_index ≤ 100 ∧
      (EmergenceDetector.analyze constO 1
        [⟨1, 10, 0, 0, 1, 0⟩, ⟨2, 10, 0, 0, 1, 0⟩]).alerts.Sublist
        [priceSpiralAlert, marketInstabilityAlert, complianceCollapseAlert,
         stressDecouplingAlert] :=
  ⟨by decide,
   c5_analyze_contract constO 1 [⟨1, 10, 0, 0, 1, 0⟩, ⟨2, 10, 0, 0, 1, 0⟩] (by decide)⟩

/-- Validity only depends on the stream values (helper). -/
theorem RNG.valid_of_vals_eq {r r' : RNG} (h : r'.vals = r.vals) (hv : r.Valid) :
    r'.Valid := fun n => h ▸ hv n

/-- randInt stays within its bounds on valid draws and preserves the stream
(helper). -/
theorem randInt_spec (a b : ℤ) (r : RNG) (hr : r.Valid) (hab : a ≤ b) :
    a ≤ (randInt a b r).1 ∧ (randInt a b r).1 ≤ b ∧ (randInt a b r).2.vals = r.vals := by
  obtain ⟨h0, h1⟩ := hr r.pos
  have hpos : (0 : ℚ) < (b : ℚ) - (a : ℚ) + 1 := by
    have : (a : ℚ) ≤ (b : ℚ) := by exact_mod_cast hab
    linarith
  have hfl0 : (0 : ℤ) ≤ ⌊r.vals r.pos * ((b : ℚ) - (a : ℚ) + 1)⌋ := by
    rw [Int.le_floor]
    push_cast
    positivity
  have hflb : ⌊r.vals r.pos * ((b : ℚ) - (a : ℚ) + 1)⌋ < b - a + 1 := by
    rw [Int.floor_lt]
    push_cast
    nlinarith
  refine ⟨?_, ?_, rfl⟩
  · simp only [randInt, randFloat, RNG.next]
    omega
  · simp only [randInt, randFloat, RNG.next]
    omega

/-- An element of a duplicate-free list is absent from the list with its own
index erased (helper). -/
theorem nodup_getElem_not_mem_eraseIdx (l : List Nat) (i : Nat) (hi : i < l.length)
    (h : l.Nodup) : l[i] ∉ l.eraseIdx i := by
  intro hmem
  rw [List.mem_eraseIdx_iff_getElem] at hmem
  obtain ⟨j, hj, hne, heq⟩ := hmem
  exact hne ((List.Nodup.getElem_inj_iff h).mp heq)

/-- random.sample succeeds whenever k is at most the pool size with valid
draws, returning k elements of the pool, duplicate-free when the pool is,
and preserving the stream values (helper). -/
theorem randSample_spec :
    ∀ (k : Nat) (pool : List Nat) (r : RNG), r.Valid → k ≤ pool.length →
      ∃ xs r', randSample k pool r = some (xs, r') ∧ xs.length = k ∧
        (∀ x ∈ xs, x ∈ pool) ∧ (pool.Nodup → xs.Nodup) ∧ r'.vals = r.vals := by
  intro k
  induction k with
  | zero =>
    intro pool r _ _
    exact ⟨[], r, rfl, rfl, by simp, fun _ => List.nodup_nil, rfl⟩
  | succ k ih =>
    intro pool r hr hk
    have hlen1 : 1 ≤ pool.length := by omega
    have hguard : ¬ pool.length < k + 1 := by omega
    obtain ⟨hi0, hib, hvals⟩ := randInt_spec 0 ((pool.length : ℤ) - 1) r hr (by omega)
    rcases hsp : randInt 0 ((pool.length : ℤ) - 1) r with ⟨iv, r1⟩
    rw [hsp] at hi0 hib hvals
    dsimp only at hi0 hib hvals
    have hitn : iv.toNat < pool.length := by omega
    have hget : pool[iv.toNat]? = some pool[iv.toNat] := List.getElem?_eq_getElem hitn
    have herlen : (pool.eraseIdx iv.toNat).length = pool.length - 1 :=
      List.length_eraseIdx_of_lt hitn
    have hr1 : r1.Valid := RNG.valid_of_vals_eq hvals hr
    obtain ⟨xs, r'', heq, hxlen, hxmem, hxnd, hxvals⟩ :=
      ih (pool.eraseIdx iv.toNat) r1 hr1 (by omega)
    refine ⟨pool[iv.toNat] :: xs, r'', ?_, ?_, ?_, ?_, ?_⟩
    · rw [randSample, if_neg hguard, hsp]
      dsimp only
      rw [hget, heq]
    · simp [hxlen]
    · intro x hx
      rcases List.mem_cons.mp hx with hx | hx
      · rw [hx]; exact List.getElem_mem hitn
      · exact List.mem_of_mem_eraseIdx (hxmem x hx)
    · intro hnd
      refine List.nodup_cons.mpr ⟨?_, hxnd (List.Nodup.eraseIdx iv.toNat hnd)⟩
      intro hmem
      exact nodup_getElem_not_mem_eraseIdx pool iv.toNat hitn hnd (hxmem _ hmem)
    · rw [hxvals, hvals]

/-- Draw primitives only advance the position, never the values (helper). -/
theorem randInt_vals (a b : ℤ) (r : RNG) : (randInt a b r).2.vals = r.vals := rfl

/-- randFloat preserves the stream values (helper). -/
theorem randFloat_vals (r : RNG) : (randFloat r).2.vals = r.vals := rfl

/-- randUniform preserves the stream values (helper). -/
theorem randUniform_vals (a b : ℚ) (r : RNG) : (randUniform a b r).2.vals = r.vals := rfl

/-- The location loop only advances the stream position (helper). -/
theorem placeLocationsLoop_vals :
    ∀ (agents : List Agent) (size : Nat) (r : RNG),
      (placeLocationsLoop agents size r).2.vals = r.vals := by
  intro agents
  induction agents with
  | nil => intro size r; rfl
  | cons a rest ih =>
    intro size r
    rcases hsp : randInt 0 ((size : ℤ) - 1) r with ⟨loc, r1⟩
    have hv : r1.vals = r.vals := by
      have h0 := randInt_vals 0 ((size : ℤ) - 1) r
      rw [hsp] at h0
      exact h0
    simp only [placeLocationsLoop, hsp]
    rcases hsp2 : placeLocationsLoop rest size r1 with ⟨tl, r2⟩
    have h1 := ih size r1
    rw [hsp2] at h1
    dsimp only
    rw [h1, hv]

/-- The network loop succeeds on valid draws over a pool of at least five
ids, producing per-agent friend lists of 2 to 5 pool members, duplicate-free
when the pool is; keys appear in iteration order (helper). -/
theorem buildNetworkLoop_spec :
    ∀ (ids : List Nat) (pool : List Nat) (r : RNG), r.Valid → 5 ≤ pool.length →
      ∃ net r', buildNetworkLoop ids pool r = some (net, r') ∧
        net.map Prod.fst = ids ∧ r'.vals = r.vals ∧
        ∀ e ∈ net, 2 ≤ e.2.length ∧ e.2.length ≤ 5 ∧
          (∀ x ∈ e.2, x ∈ pool) ∧ (pool.Nodup → e.2.Nodup) := by
  intro ids
  induction ids with
  | nil =>
    intro pool r _ _
    exact ⟨[], r, rfl, rfl, rfl, by simp⟩
  | cons aid rest ih =>
    intro pool r hr h5
    obtain ⟨hi2, hi5, hvals⟩ := randInt_spec 2 5 r hr (by omega)
    rcases hsp : randInt 2 5 r with ⟨nf, r1⟩
    rw [hsp] at hi2 hi5 hvals
    dsimp only at hi2 hi5 hvals
    have hr1 : r1.Valid := RNG.valid_of_vals_eq hvals hr
    have hk : nf.toNat ≤ pool.length := by omega
    obtain ⟨friends, r2, hsample, hflen, hfmem, hfnd, hfvals⟩ :=
      randSample_spec nf.toNat pool r1 hr1 hk
    obtain ⟨net, r3, hnet, hkeys, hnvals, hprops⟩ := ih pool r2
      (RNG.valid_of_vals_eq hfvals hr1) h5
    refine ⟨(aid, friends) :: net, r3, ?_, ?_, ?_, ?_⟩
    · rw [buildNetworkLoop, hsp]
      dsimp only
      rw [hsample]
      dsimp only
      rw [hnet]
    · simp [hkeys]
    · rw [hnvals, hfvals, hvals]
    · intro e he
      rcases List.mem_cons.mp he with he | he
      · subst he
        dsimp only
        refine ⟨by omega, by omega, hfmem, hfnd⟩
      · exact hprops e he

/-- Association lookup finds a value for every present key (helper). -/
theorem lookup_of_key_mem :
    ∀ (net : List (Nat × List Nat)) (k : Nat), k ∈ net.map Prod.fst →
      ∃ v, net.lookup k = some v ∧ (k, v) ∈ net := by
  intro net
  induction net with
  | nil => intro k hk; simp at hk
  | cons e rest ih =>
    intro k hk
    rw [List.map_cons, List.mem_cons] at hk
    by_cases hke : k = e.1
    · subst hke
      refine ⟨e.2, ?_, ?_⟩
      · simp [List.lookup]
      · simp
    · rcases hk with h1 | h1
      · exact absurd h1 hke
      · obtain ⟨v, hv, hmem⟩ := ih k h1
        refine ⟨v, ?_, List.mem_cons_of_mem _ hmem⟩
        rw [List.lookup]
        have hbeq : (k == e.1) = false := by
          simp [hke]
        rw [hbeq]
        exact hv

/-- place_agents succeeds on valid draws over at least five agents and every
agent gets a friend list drawn from the full id pool (helper). -/
theorem place_agents_spec (env : Environment) (agents : List Agent) (r : RNG)
    (hr : r.Valid) (h5 : 5 ≤ agents.length) :
    ∃ env' r', env.place_agents agents r = some (env', r') ∧
      ∀ a ∈ agents, ∃ friends, env'.network.lookup a.id = some friends ∧
        2 ≤ friends.length ∧ friends.length ≤ 5 ∧
        (∀ x ∈ friends, x ∈ agents.map (fun b => b.id)) ∧
        ((agents.map (fun b => b.id)).Nodup → friends.Nodup) := by
  rcases hploc : placeLocationsLoop agents env.size r with ⟨locs, r1⟩
  have hr1 : r1.Valid := by
    have hv := placeLocationsLoop_vals agents env.size r
    rw [hploc] at hv
    exact RNG.valid_of_vals_eq hv hr
  have hlen : 5 ≤ (agents.map (fun b => b.id)).length := by simpa using h5
  obtain ⟨net, r2, hnet, hkeys, _, hprops⟩ :=
    buildNetworkLoop_spec (agents.map (fun b => b.id)) (agents.map (fun b => b.id))
      r1 hr1 hlen
  refine ⟨{ env with agent_locations := locs, network := net }, r2, ?_, ?_⟩
  · rw [Environment.place_agents, hploc]
    dsimp only
    rw [hnet]
  · intro a ha
    have hkmem : a.id ∈ net.map Prod.fst := by
      rw [hkeys]
      exact List.mem_map_of_mem _ ha
    obtain ⟨v, hv, hmem⟩ := lookup_of_key_mem net a.id hkmem
    obtain ⟨h2, h5', hmemp, hnd⟩ := hprops (a.id, v) hmem
    exact ⟨v, hv, h2, h5', hmemp, hnd⟩

/-- C4 amended: after place_agents on a population of at least five agents
with distinct ids and valid draws, the social network maps every agent to a
list of 2 to 5 distinct agent ids sampled from the whole population; the
list may contain the agent's own id, as the counterexample shows, because
random.sample draws from the full id list without removing the agent. -/
theorem c4_place_agents_network (env : Environment) (agents : List Agent) (r : RNG)
    (hr : r.Valid) (h5 : 5 ≤ agents.length)
    (hnd : (agents.map (fun b => b.id)).Nodup) :
    ∃ env' r', env.place_agents agents r = some (env', r') ∧
      ∀ a ∈ agents, ∃ friends, env'.network.lookup a.id = some friends ∧
        2 ≤ friends.length ∧ friends.length ≤ 5 ∧ friends.Nodup ∧
        ∀ x ∈ friends, x ∈ agents.map (fun b => b.id) := by
  obtain ⟨env', r', heq, hall⟩ := place_agents_spec env agents r hr h5
  refine ⟨env', r', heq, ?_⟩
  intro a ha
  obtain ⟨friends, hv, h2, h5', hmem, hndf⟩ := hall a ha
  exact ⟨friends, hv, h2, h5', hndf hnd, hmem⟩

/-- C4 amended witness: the five test agents with the all-zero stream. -/
theorem c4_place_agents_network_witness :
    RNG.Valid zeroRNG ∧ 5 ≤ testAgents.length ∧
      (testAgents.map (fun b => b.id)).Nodup ∧
      ((Environment.init 1).place_agents testAgents zeroRNG).isSome := by
  have h5 : 5 ≤ testAgents.length := by decide
  have hnd : (testAgents.map (fun b => b.id)).Nodup := by decide
  obtain ⟨env', r', heq, _⟩ :=
    c4_place_agents_network (Environment.init 1) testAgents zeroRNG zeroRNG_valid h5 hnd
  refine ⟨zeroRNG_valid, h5, hnd, ?_⟩
  rw [heq]
  rfl

/-- The population loop produces exactly k agents and only advances stream
positions (helper). -/
theorem genPopLoop_spec (O : MathOracle) :
    ∀ (k i : Nat) (g : GlobalRNG),
      ((generatePopulationLoop O k i g).1).length = k ∧
      (generatePopulationLoop O k i g).2.py.vals = g.py.vals ∧
      (generatePopulationLoop O k i g).2.npr.vals = g.npr.vals := by
  intro k
  induction k with
  | zero => intro i g; exact ⟨rfl, rfl, rfl⟩
  | succ k ih =>
    intro i g
    rcases hsp : generatePopulationLoop O k (i + 1)
        ⟨⟨g.py.vals, g.py.pos + 1 + 1⟩, ⟨g.npr.vals, g.npr.pos + 1⟩⟩ with ⟨rest, g2⟩
    have h := ih (i + 1) ⟨⟨g.py.vals, g.py.pos + 1 + 1⟩, ⟨g.npr.vals, g.npr.pos + 1⟩⟩
    rw [hsp] at h
    simp only [generatePopulationLoop, randFloat, randUniform, RNG.next]
    rw [hsp]
    dsimp only
    exact ⟨by simp [h.1], h.2.1, h.2.2⟩

/-- C3 amended: construction with a non-positive population_size succeeds
and returns an engine with an empty population rather than failing fast;
construction with population_size 1 always fails inside the social-network
sampling (see the counterexample); for population_size at least 5 and any
integer seed, construction succeeds on valid streams; and the result never
depends on the inherited global generator state. -/
theorem c3_construction_behavior (W : World) (O : MathOracle)
    (population_size seed : ℤ) (g : GlobalRNG) (hW : W.Valid) :
    (population_size ≤ 0 →
      initAgents (SimulationEngine.init W O population_size seed g) = some []) ∧
    (5 ≤ population_size →
      (SimulationEngine.init W O population_size seed g).isSome) ∧
    (∀ g', SimulationEngine.init W O population_size seed g =
      SimulationEngine.init W O population_size seed g') := by
  refine ⟨?_, ?_, fun g' => rfl⟩
  · intro hle
    have htoNat : population_size.toNat = 0 := Int.toNat_eq_zero.mpr hle
    simp [SimulationEngine.init, generate_population, htoNat, generatePopulationLoop,
      Environment.place_agents, placeLocationsLoop, buildNetworkLoop, initAgents]
  · intro h5
    rcases hgp : generate_population W O population_size seed with ⟨agents, g1⟩
    have hspec := genPopLoop_spec O population_size.toNat 0 (seedAll W seed)
    rw [show generatePopulationLoop O population_size.toNat 0 (seedAll W seed) =
        generate_population W O population_size seed from rfl, hgp] at hspec
    have hlen : 5 ≤ agents.length := by
      rw [hspec.1]
      omega
    have hpyvals : g1.py.vals = W.pyStream seed := hspec.2.1
    have hpyvalid : g1.py.Valid := by
      intro n
      rw [hpyvals]
      exact (hW seed n).1
    obtain ⟨env', r', hplace, _⟩ := place_agents_spec
      (Environment.init (max 1 (Int.fdiv population_size 10)).toNat) agents g1.py
      hpyvalid hlen
    rw [SimulationEngine.init, hgp]
    dsimp only
    rw [hplace]
    rfl

/-- C3 amended witness: population size 5 with seed 42 on the constant world
succeeds. -/
theorem c3_construction_behavior_witness :
    World.Valid constW ∧
      (SimulationEngine.init constW constO 5 42 constG).isSome :=
  ⟨constW_valid,
   (c3_construction_behavior constW constO 5 42 constG constW_valid).2.1 (by norm_num)⟩

/-- The market update floors every supply at 0.1 and clamps every price to
[1, 1000] when the incoming supplies are at least 0.1 (helper). -/
theorem update_market_dynamics_bounds (env : Environment) (agents : List Agent)
    (env' : Environment) (hs : ∀ nb ∈ env.neighborhoods, 1/10 ≤ nb.supply)
    (heq : env.update_market_dynamics agents = some env') :
    ∀ nb ∈ env'.neighborhoods, 1/10 ≤ nb.supply ∧ 1 ≤ nb.price ∧ nb.price ≤ 1000 := by
  unfold Environment.update_market_dynamics at heq
  rcases hacc : accumulateDemands agents env.agent_locations (List.replicate env.size 0) with
    _ | demands
  · rw [hacc] at heq
    exact absurd heq (by simp)
  · rw [hacc] at heq
    dsimp only at heq
    rw [Option.some.injEq] at heq
    subst heq
    intro nb hnb
    obtain ⟨p, hp, rfl⟩ := List.mem_map.mp hnb
    have hp1 : p.1 ∈ env.neighborhoods := (List.of_mem_zip hp).1
    have hsup := hs p.1 hp1
    unfold updateNeighborhood
    rw [if_pos (by linarith : p.1.supply > 0)]
    dsimp only
    refine ⟨le_max_left _ _, le_max_left _ _, ?_⟩
    exact max_le (by norm_num) (min_le_left _ _)

/-- The housing price-increase factor is nonnegative (helper). -/
theorem housing_factor_nonneg (demand supply : ℚ) :
    0 ≤ HousingRentSubsidy.apply_distortion_mechanism demand supply := by
  unfold HousingRentSubsidy.apply_distortion_mechanism
  split
  · norm_num
  · exact le_max_left _ _

/-- The distortion block preserves the supply floor and the price lower
bound, and preserves the price ceiling when no housing policy is active
(helper). -/
theorem applyDistortions_bounds :
    ∀ (pols : List Policy) (env : Environment),
      (∀ nb ∈ env.neighborhoods, 1/10 ≤ nb.supply ∧ 1 ≤ nb.price) →
      ((∀ nb ∈ (applyDistortions pols env).neighborhoods,
          1/10 ≤ nb.supply ∧ 1 ≤ nb.price) ∧
        ((∀ p ∈ pols, p.type ≠ PolicyType.HOUSING_RENT_SUBSIDY) →
          (∀ nb ∈ env.neighborhoods, nb.price ≤ 1000) →
          ∀ nb ∈ (applyDistortions pols env).neighborhoods, nb.price ≤ 1000)) := by
  intro pols
  induction pols with
  | nil =>
    intro env h
    exact ⟨h, fun _ hup => hup⟩
  | cons p rest ih =>
    intro env h
    by_cases hh : p.type = PolicyType.HOUSING_RENT_SUBSIDY
    · have hb : (p.type == PolicyType.HOUSING_RENT_SUBSIDY) = true := by
        simp [hh]
      have hnf : (p.type == PolicyType.FOOD_PRICE_CEILING) = false := by
        simp [hh]
      have hlow : ∀ nb ∈ (applyHousingDistortion p env.neighborhoods),
          1/10 ≤ nb.supply ∧ 1 ≤ nb.price := by
        intro nb hnb
        obtain ⟨q, hq, rfl⟩ := List.mem_map.mp hnb
        obtain ⟨hqs, hqp⟩ := h q hq
        have hf := housing_factor_nonneg q.demand q.supply
        dsimp only
        refine ⟨hqs, ?_⟩
        calc (1 : ℚ) ≤ q.price := hqp
          _ ≤ q.price * (1 + HousingRentSubsidy.apply_distortion_mechanism q.demand q.supply) :=
            le_mul_of_one_le_right (by linarith) (by linarith)
      have := ih { env with neighborhoods := applyHousingDistortion p env.neighborhoods } hlow
      constructor
      · have hgoal : applyDistortions (p :: rest) env =
            applyDistortions rest
              { env with neighborhoods := applyHousingDistortion p env.neighborhoods } := by
          rw [applyDistortions, hb, hnf]
          simp
        rw [hgoal]
        exact this.1
      · intro hnp _
        exact absurd hh (hnp p (List.mem_cons_self p rest))
    · have hb : (p.type == PolicyType.HOUSING_RENT_SUBSIDY) = false := by
        simp [hh]
      by_cases hf : p.type = PolicyType.FOOD_PRICE_CEILING
      · have hbf : (p.type == PolicyType.FOOD_PRICE_CEILING) = true := by
          simp [hf]
        have hgoal : applyDistortions (p :: rest) env =
            applyDistortions rest
              { env with neighborhoods := applyFoodDistortion p env.neighborhoods } := by
          rw [applyDistortions, hb, hbf]
          simp
        have hlow : ∀ nb ∈ (applyFoodDistortion p env.neighborhoods),
            1/10 ≤ nb.supply ∧ 1 ≤ nb.price := by
          intro nb hnb
          obtain ⟨q, hq, rfl⟩ := List.mem_map.mp hnb
          obtain ⟨hqs, hqp⟩ := h q hq
          exact ⟨le_max_left _ _, hqp⟩
        have ihres := ih { env with neighborhoods := applyFoodDistortion p env.neighborhoods } hlow
        constructor
        · rw [hgoal]
          exact ihres.1
        · intro hnp hup
          rw [hgoal]
          refine ihres.2 (fun q hq => hnp q (List.mem_cons_of_mem p hq)) ?_
          intro nb hnb
          obtain ⟨q, hq, rfl⟩ := List.mem_map.mp hnb
          exact hup q hq
      · have hbf : (p.type == PolicyType.FOOD_PRICE_CEILING) = false := by
          simp [hf]
        have hgoal : applyDistortions (p :: rest) env = applyDistortions rest env := by
          rw [applyDistortions, hb, hbf]
          simp
        have ihres := ih env h
        constructor
        · rw [hgoal]
          exact ihres.1
        · intro hnp hup
          rw [hgoal]
          exact ihres.2 (fun q hq => hnp q (List.mem_cons_of_mem p hq)) hup

/-- One step keeps the supply floor and price lower bound, and keeps the
price ceiling when no housing policy is active; active policies are
unchanged (helper). -/
theorem step_env_bounds (O : MathOracle) (e : SimulationEngine) (g : GlobalRNG)
    (e' : SimulationEngine) (rcd : HistoryRecord) (g' : GlobalRNG)
    (hstep : e.step O g = some (e', rcd, g'))
    (hs : ∀ nb ∈ e.env.neighborhoods, 1/10 ≤ nb.supply) :
    e'.active_policies = e.active_policies ∧
    (∀ nb ∈ e'.env.neighborhoods, 1/10 ≤ nb.supply ∧ 1 ≤ nb.price) ∧
    ((∀ p ∈ e.active_policies, p.type ≠ PolicyType.HOUSING_RENT_SUBSIDY) →
      ∀ nb ∈ e'.env.neighborhoods, nb.price ≤ 1000) := by
  unfold SimulationEngine.step at hstep
  split at hstep
  · exact absurd hstep (by simp)
  · dsimp only at hstep
    split at hstep
    · exact absurd hstep (by simp)
    · rename_i st hloop
      unfold stepFinish at hstep
      obtain ⟨env1, hupd, hf⟩ := Option.map_eq_some'.mp hstep
      rw [Prod.mk.injEq, Prod.mk.injEq] at hf
      obtain ⟨he', _, _⟩ := hf
      have hb1 := update_market_dynamics_bounds e.env _ env1 hs hupd
      have hlow : ∀ nb ∈ env1.neighborhoods, 1/10 ≤ nb.supply ∧ 1 ≤ nb.price :=
        fun nb hnb => ⟨(hb1 nb hnb).1, (hb1 nb hnb).2.1⟩
      have hup : ∀ nb ∈ env1.neighborhoods, nb.price ≤ 1000 :=
        fun nb hnb => (hb1 nb hnb).2.2
      have hd := applyDistortions_bounds e.active_policies env1 hlow
      refine ⟨?_, ?_, ?_⟩
      · rw [← he']
      · rw [← he']
        exact hd.1
      · intro hnp
        rw [← he']
        exact hd.2 hnp hup

/-- Any number of steps keeps the supply floor and the price lower bound, and
leaves the policy list unchanged (helper). -/
theorem run_env_lower (O : MathOracle) :
    ∀ (k : Nat) (e : SimulationEngine) (g : GlobalRNG) (e' : SimulationEngine)
      (hist : List HistoryRecord) (g' : GlobalRNG),
      SimulationEngine.run O k e g = some (e', hist, g') →
      (∀ nb ∈ e.env.neighborhoods, 1/10 ≤ nb.supply ∧ 1 ≤ nb.price) →
      ((∀ nb ∈ e'.env.neighborhoods, 1/10 ≤ nb.supply ∧ 1 ≤ nb.price) ∧
        e'.active_policies = e.active_policies) := by
  intro k
  induction k with
  | zero =>
    intro e g e' hist g' hrun hinv
    unfold SimulationEngine.run at hrun
    rw [Option.some.injEq, Prod.mk.injEq] at hrun
    obtain ⟨he, _⟩ := hrun
    subst he
    exact ⟨hinv, rfl⟩
  | succ k ih =>
    intro e g e' hist g' hrun hinv
    unfold SimulationEngine.run at hrun
    split at hrun
    · exact absurd hrun (by simp)
    · rename_i e1 rcd g1 hstep
      split at hrun
      · exact absurd hrun (by simp)
      · rename_i e2 rs g2 hrun2
        rw [Option.some.injEq, Prod.mk.injEq, Prod.mk.injEq] at hrun
        obtain ⟨he2, _, _⟩ := hrun
        obtain ⟨hpol1, hlow1, _⟩ := step_env_bounds O e g e1 rcd g1 hstep
          (fun nb hnb => (hinv nb hnb).1)
        obtain ⟨hlow2, hpol2⟩ := ih e1 g1 e2 rs g2 hrun2 hlow1
        rw [← he2]
        exact ⟨hlow2, hpol2.trans hpol1⟩

/-- Without a housing policy the price ceiling is kept through any number of
steps (helper). -/
theorem run_env_upper (O : MathOracle) :
    ∀ (k : Nat) (e : SimulationEngine) (g : GlobalRNG) (e' : SimulationEngine)
      (hist : List HistoryRecord) (g' : GlobalRNG),
      SimulationEngine.run O k e g = some (e', hist, g') →
      (∀ p ∈ e.active_policies, p.type ≠ PolicyType.HOUSING_RENT_SUBSIDY) →
      (∀ nb ∈ e.env.neighborhoods, 1/10 ≤ nb.supply ∧ 1 ≤ nb.price ∧ nb.price ≤ 1000) →
      ∀ nb ∈ e'.env.neighborhoods, nb.price ≤ 1000 := by
  intro k
  induction k with
  | zero =>
    intro e g e' hist g' hrun hnp hinv
    unfold SimulationEngine.run at hrun
    rw [Option.some.injEq, Prod.mk.injEq] at hrun
    obtain ⟨he, _⟩ := hrun
    subst he
    exact fun nb hnb => (hinv nb hnb).2.2
  | succ k ih =>
    intro e g e' hist g' hrun hnp hinv
    unfold SimulationEngine.run at hrun
    split at hrun
    · exact absurd hrun (by simp)
    · rename_i e1 rcd g1 hstep
      split at hrun
      · exact absurd hrun (by simp)
      · rename_i e2 rs g2 hrun2
        rw [Option.some.injEq, Prod.mk.injEq, Prod.mk.injEq] at hrun
        obtain ⟨he2, _, _⟩ := hrun
        obtain ⟨hpol1, hlow1, hupimp⟩ := step_env_bounds O e g e1 rcd g1 hstep
          (fun nb hnb => (hinv nb hnb).1)
        have hup1 := hupimp hnp
        have hnp1 : ∀ p ∈ e1.active_policies, p.type ≠ PolicyType.HOUSING_RENT_SUBSIDY := by
          rw [hpol1]
          exact hnp
        rw [← he2]
        exact ih e1 g1 e2 rs g2 hrun2 hnp1
          (fun nb hnb => ⟨(hlow1 nb hnb).1, (hlow1 nb hnb).2, hup1 nb hnb⟩)

/-- place_agents never touches the neighborhoods (helper). -/
theorem place_agents_neighborhoods (env : Environment) (agents : List Agent)
    (r : RNG) (env' : Environment) (r' : RNG)
    (h : env.place_agents agents r = some (env', r')) :
    env'.neighborhoods = env.neighborhoods := by
  unfold Environment.place_agents at h
  rcases hpl : placeLocationsLoop agents env.size r with ⟨locs, r1⟩
  rw [hpl] at h
  dsimp only at h
  split at h
  · exact absurd h (by simp)
  · rw [Option.some.injEq, Prod.mk.injEq] at h
    obtain ⟨he, _⟩ := h
    rw [← he]

/-- A freshly constructed engine has every neighborhood at supply 50, demand
0, price 10 and no active policies (helper). -/
theorem init_env_replicate (W : World) (O : MathOracle) (n seed : ℤ) (g : GlobalRNG)
    (e : SimulationEngine) (g1 : GlobalRNG)
    (h : SimulationEngine.init W O n seed g = some (e, g1)) :
    (∀ nb ∈ e.env.neighborhoods, nb = ⟨50, 0, 10⟩) ∧ e.active_policies = [] := by
  unfold SimulationEngine.init at h
  rcases hgp : generate_population W O n seed with ⟨agents, g2⟩
  rw [hgp] at h
  dsimp only at h
  split at h
  · exact absurd h (by simp)
  · rename_i env1 py' hpl
    rw [Option.some.injEq, Prod.mk.injEq] at h
    obtain ⟨he, _⟩ := h
    have hnb := place_agents_neighborhoods _ agents g2.py env1 py' hpl
    constructor
    · intro nb hmem
      rw [← he] at hmem
      dsimp only at hmem
      rw [hnb] at hmem
      exact List.eq_of_mem_replicate hmem
    · rw [← he]

/-- C2 amended: after construction, any policy activation and any number of
steps, every neighborhood keeps supply at least 0.1 and price at least 1;
the price also stays at most 1000 whenever no housing-rent-subsidy policy is
active — with a housing policy the post-clamp multiplicative distortion can
push the price above 1000, as the counterexample shows. -/
theorem c2_env_invariants (W : World) (O : MathOracle) (population_size seed : ℤ)
    (policies : List Policy) (steps : Nat) (g : GlobalRNG) :
    (∀ nb ∈ envNbs (constructAndRun W O population_size seed policies steps g),
        1/10 ≤ nb.supply ∧ 1 ≤ nb.price) ∧
    ((∀ p ∈ policies, p.type ≠ PolicyType.HOUSING_RENT_SUBSIDY) →
      ∀ nb ∈ envNbs (constructAndRun W O population_size seed policies steps g),
        nb.price ≤ 1000) := by
  rcases hcr : constructAndRun W O population_size seed policies steps g with
    _ | ⟨e', hist, g'⟩
  · constructor
    · intro nb hnb
      simp [envNbs] at hnb
    · intro _ nb hnb
      simp [envNbs] at hnb
  · have hcr2 := hcr
    unfold constructAndRun at hcr2
    split at hcr2
    · exact absurd hcr2 (by simp)
    · rename_i e0 g1 hinit
      obtain ⟨hrep, _⟩ := init_env_replicate W O population_size seed g e0 g1 hinit
      have hfull : ∀ nb ∈ ({ e0 with active_policies := policies } :
          SimulationEngine).env.neighborhoods,
          1/10 ≤ nb.supply ∧ 1 ≤ nb.price ∧ nb.price ≤ 1000 := by
        intro nb hnb
        have heqnb := hrep nb hnb
        rw [heqnb]
        norm_num
      obtain ⟨hlow, _⟩ := run_env_lower O steps { e0 with active_policies := policies }
        g1 e' hist g' hcr2 (fun nb hnb => ⟨(hfull nb hnb).1, (hfull nb hnb).2.1⟩)
      constructor
      · exact hlow
      · intro hnp
        exact run_env_upper O steps { e0 with active_policies := policies }
          g1 e' hist g' hcr2 hnp hfull

/-- C2 amended witness: the concrete 5-agent no-policy run for one step. -/
theorem c2_env_invariants_witness :
    (∀ nb ∈ envNbs noPolicyRun, 1/10 ≤ nb.supply ∧ 1 ≤ nb.price ∧ nb.price ≤ 1000) ∧
      envNbs noPolicyRun ≠ [] := by
  have h := c2_env_invariants constW constO 5 0 [] 1 constG
  have hup := h.2 (by simp)
  refine ⟨fun nb hnb => ⟨(h.1 nb hnb).1, (h.1 nb hnb).2, hup nb hnb⟩, by decide⟩

/-- Consumption never changes income or base_income (helper). -/
theorem decide_consumption_income (a : Agent) (price availability : ℚ) (r : RNG) :
    (a.decide_consumption price availability r).1.2.income = a.income ∧
      (a.decide_consumption price availability r).1.2.base_income = a.base_income :=
  ⟨rfl, rfl⟩

/-- Social influence never changes income or base_income (helper). -/
theorem apply_social_influence_income (a : Agent) (nb : List Decision) :
    (a.apply_social_influence nb).income = a.income ∧
      (a.apply_social_influence nb).base_income = a.base_income := by
  unfold Agent.apply_social_influence
  split
  · exact ⟨rfl, rfl⟩
  · exact ⟨rfl, rfl⟩


/-- The compliance decision never changes income or base_income (helper). -/
theorem decide_compliance_income (O : MathOracle) (a : Agent) (ep bm : ℚ) (r : RNG) :
    (a.decide_compliance O ep bm r).2.1.income = a.income ∧
      (a.decide_compliance O ep bm r).2.1.base_income = a.base_income := by
  unfold Agent.decide_compliance
  dsimp only
  constructor <;> (split <;> rfl)

/-- The intended-effect loop of a single housing policy adds the subsidy to
income below the threshold and leaves base_income and id unchanged (helper). -/
theorem applyIntendedLoop_housing (s t : ℚ) (a : Agent) :
    (applyIntendedLoop [HousingRentSubsidy s t] a).income =
        (if a.income < t then a.income + s else a.income) ∧
      (applyIntendedLoop [HousingRentSubsidy s t] a).base_income = a.base_income ∧
      (applyIntendedLoop [HousingRentSubsidy s t] a).id = a.id := by
  have ht : (HousingRentSubsidy s t).get_param "eligibility_threshold" = t := by
    simp [HousingRentSubsidy, Policy.get_param, List.lookup]
  have hs : (HousingRentSubsidy s t).get_param "subsidy_amount" = s := by
    simp [HousingRentSubsidy, Policy.get_param, List.lookup]
  have htype : ((HousingRentSubsidy s t).type == PolicyType.HOUSING_RENT_SUBSIDY) = true := by
    simp [HousingRentSubsidy]
  simp only [applyIntendedLoop, htype, if_true, HousingRentSubsidy.apply_intended_effect,
    ht, hs]
  exact ⟨trivial, trivial, trivial⟩

/-- Processing one agent under a single housing policy sets only index k,
and there adds the subsidy to income below the threshold while base_income
becomes the pre-subsidy income (helper). -/
theorem stepProcessAgent_housing (O : MathOracle) (s t : ℚ) (env : Environment)
    (bp : ℚ) (st : LoopState) (k : Nat) (st' : LoopState)
    (h : stepProcessAgent O [HousingRentSubsidy s t] none none env bp st k = some st') :
    st'.agents.length = st.agents.length ∧
    (∀ j, j ≠ k → st'.agents[j]? = st.agents[j]?) ∧
    (∀ a0, st.agents[k]? = some a0 →
      ∃ a', st'.agents[k]? = some a' ∧
        a'.income = (if a0.income < t then a0.income + s else a0.income) ∧
        a'.base_income = a0.income) := by
  unfold stepProcessAgent at h
  split at h
  · exact absurd h (by simp)
  · rename_i a0 hk
    dsimp only at h
    split at h
    · exact absurd h (by simp)
    · rename_i price0 hp
      split at h
      · exact absurd h (by simp)
      · rename_i avail hav
        have hklen : k < st.agents.length := by
          obtain ⟨hlt, _⟩ := List.getElem?_eq_some_iff.mp hk
          exact hlt
        split at h <;>
        · rw [Option.some.injEq] at h
          subst h
          refine ⟨by simp, ?_, ?_⟩
          · intro j hj
            exact List.getElem?_set_ne (fun hh => hj hh.symm)
          · intro a0' ha0'
            rw [hk, Option.some.injEq] at ha0'
            subst ha0'
            refine ⟨_, List.getElem?_set_self hklen, ?_, ?_⟩
            · rw [(decide_compliance_income O _ _ _ _).1,
                (apply_social_influence_income _ _).1,
                (decide_consumption_income _ _ _ _).1,
                (applyIntendedLoop_housing s t _).1]
              rfl
            · rw [(decide_compliance_income O _ _ _ _).2,
                (apply_social_influence_income _ _).2,
                (decide_consumption_income _ _ _ _).2,
                (applyIntendedLoop_housing s t _).2.1]
              rfl

/-- The agent loop under a single housing policy processes each listed index
once: indices outside the list are untouched, and each listed index gets the
subsidy applied to the agent that was there at loop start (helper). -/
theorem stepLoop_housing (O : MathOracle) (s t : ℚ) (env : Environment) (bp : ℚ) :
    ∀ (ks : List Nat) (st st' : LoopState),
      stepLoop O [HousingRentSubsidy s t] none none env bp st ks = some st' →
      st'.agents.length = st.agents.length ∧
      (∀ j, j ∉ ks → st'.agents[j]? = st.agents[j]?) ∧
      (ks.Nodup → ∀ k ∈ ks, ∀ a0, st.agents[k]? = some a0 →
        ∃ a', st'.agents[k]? = some a' ∧
          a'.income = (if a0.income < t then a0.income + s else a0.income) ∧
          a'.base_income = a0.income) := by
  intro ks
  induction ks with
  | nil =>
    intro st st' h
    rw [stepLoop, Option.some.injEq] at h
    subst h
    exact ⟨rfl, fun j _ => rfl, fun _ k hk => absurd hk (List.not_mem_nil k)⟩
  | cons k ks ih =>
    intro st st' h
    rw [stepLoop] at h
    split at h
    · exact absurd h (by simp)
    · rename_i st1 hpa
      obtain ⟨hlen1, hoth1, hat1⟩ := stepProcessAgent_housing O s t env bp st k st1 hpa
      obtain ⟨hlen2, hoth2, hat2⟩ := ih st1 st' h
      refine ⟨hlen2.trans hlen1, ?_, ?_⟩
      · intro j hj
        rw [List.mem_cons] at hj
        push_neg at hj
        rw [hoth2 j (fun hmem => hj.2 hmem), hoth1 j hj.1]
      · intro hnd k' hk' a0 ha0
        have hndcons := List.nodup_cons.mp hnd
        rw [List.mem_cons] at hk'
        rcases hk' with hk' | hk'
        · subst hk'
          obtain ⟨a', ha', hinc, hbase⟩ := hat1 a0 ha0
          refine ⟨a', ?_, hinc, hbase⟩
          rw [hoth2 k' hndcons.1]
          exact ha'
        · have hne : k' ≠ k := fun hh => hndcons.1 (hh ▸ hk')
          have ha0' : st1.agents[k']? = some a0 := by
            rw [hoth1 k' hne]
            exact ha0
          exact hat2 hndcons.2 k' hk' a0 ha0'

/-- A lone housing policy is not a fuel-tax policy (helper). -/
theorem findPolicy_housing_fuel (s t : ℚ) :
    findPolicy [HousingRentSubsidy s t] PolicyType.FUEL_TAX_REBATE = none := rfl

/-- A lone housing policy is not a luxury-tax policy (helper). -/
theorem findPolicy_housing_luxury (s t : ℚ) :
    findPolicy [HousingRentSubsidy s t] PolicyType.LUXURY_ASSET_TAX = none := rfl

/-- Tail of a housing-only step: after the agent loop and the finish phase,
the agent at index i has its subsidized income and pre-subsidy base income
(helper). -/
theorem stepLoopFinish_income (O : MathOracle) (e : SimulationEngine) (s t bp : ℚ)
    (g0 : GlobalRNG) (i : Nat) (a0 : Agent) (st : LoopState)
    (e' : SimulationEngine) (rcd : HistoryRecord) (g' : GlobalRNG)
    (ha : e.agents[i]? = some a0) (hlt : a0.income < t)
    (hloop : stepLoop O [HousingRentSubsidy s t] none none e.env bp
      ⟨e.agents, 0, 0, 0, g0⟩ (List.range e.agents.length) = some st)
    (hfin : stepFinish e none st = some (e', rcd, g')) :
    (e'.agents[i]?).map (fun a => (a.income, a.base_income)) =
      some (a0.income + s, a0.income) := by
  unfold stepFinish at hfin
  dsimp only at hfin
  obtain ⟨env1, hupd, hf⟩ := Option.map_eq_some'.mp hfin
  rw [Prod.mk.injEq, Prod.mk.injEq] at hf
  obtain ⟨he', _, _⟩ := hf
  obtain ⟨hlen, hoth, hat⟩ :=
    stepLoop_housing O s t e.env bp (List.range e.agents.length)
      ⟨e.agents, 0, 0, 0, g0⟩ st hloop
  have hi : i ∈ List.range e.agents.length := by
    rw [List.mem_range]
    obtain ⟨hlt', _⟩ := List.getElem?_eq_some_iff.mp ha
    exact hlt'
  obtain ⟨a', ha', hinc, hbase⟩ := hat (List.nodup_range _) i hi a0 ha
  rw [← he']
  dsimp only
  rw [ha', Option.map_some']
  rw [hinc, hbase, if_pos hlt]

/-- C10: with a single active HousingRentSubsidy policy, a completed step()
permanently writes the subsidized income back into every agent below the
eligibility threshold: income grows by exactly subsidy_amount, and
base_income becomes the pre-subsidy income that update_income had just
written, so the subsidy compounds into the income baseline at the next step
rather than acting as a flat top-up on the original income. -/
theorem c10_housing_subsidy_compounds (O : MathOracle) (e : SimulationEngine)
    (g : GlobalRNG) (s t : ℚ) (i : Nat) (a0 : Agent)
    (hpol : e.active_policies = [HousingRentSubsidy s t])
    (ha : e.agents[i]? = some a0) (hlt : a0.income < t)
    (hsome : (e.step O g).isSome) :
    incomeBaseAt (e.step O g) i = some (a0.income + s, a0.income) := by
  rcases hstep : e.step O g with _ | ⟨e', rcd, g'⟩
  · rw [hstep] at hsome
    simp at hsome
  · have hstep2 := hstep
    unfold SimulationEngine.step at hstep2
    rw [hpol, findPolicy_housing_fuel, findPolicy_housing_luxury] at hstep2
    split at hstep2
    · exact absurd hstep2 (by simp)
    · unfold incomeBaseAt
      dsimp only at hstep2 ⊢
      split at hstep2
      · exact absurd hstep2 (by simp)
      · rename_i st hloop
        exact stepLoopFinish_income O e s t _ g i a0 st e' rcd g' ha hlt hloop hstep2

/-- C10 witness: the concrete single-agent housing engine; income 1000 grows
to 1800 and base_income stays 1000 after one step. -/
theorem c10_housing_subsidy_compounds_witness :
    housingEngine.active_policies = [HousingRentSubsidy 800 2000] ∧
      housingEngine.agents[0]? = some (mkTestAgent 0) ∧
      (mkTestAgent 0).income < 2000 ∧
      (SimulationEngine.step constO housingEngine constG).isSome ∧
      incomeBaseAt (SimulationEngine.step constO housingEngine constG) 0 =
        some ((mkTestAgent 0).income + 800, (mkTestAgent 0).income) :=
  ⟨rfl, by decide, by decide, by decide,
   c10_housing_subsidy_compounds constO housingEngine constG 800 2000 0 (mkTestAgent 0)
     rfl (by decide) (by decide) (by decide)⟩
